import Mathlib

/-!
Sliding text: the row state machine and the frame driver.

A shallow embedding of `src/sliding_text.c`.

* A `char *` handed to a text layer is `Option Buf`: `none` is the null pointer and
  `some b` points at one of the string slots of `SlidingTextRenderState`.
* A `TextLayer *` is the pair of the text pointer the layer holds and its frame.  A layer
  made by `text_layer_create` holds no text.
* Machine integers are `Int` with explicit wrapping where the program computes.  The
  fields of a frame are `int16_t`: `frame.origin.x -= speed` stores `wrap16` of the
  difference.  The counter of a row is an `int`: `delay_count++` stores `wrap32` of the
  sum.  The geometry fields of a row (`left_pos`, `right_pos`, `still_pos`) are `int`
  fields that `init_sliding_row` fills from `int16_t` values, so storing one of them in
  a frame leaves its value as it is.
* The characters produced by `hour_to_12h_word` and `minute_to_formal_words` are not
  modelled (they live in `num2words`); a call of a formatter is recorded as a `Write` to
  each destination slot, together with the rows as they are at that moment.
* `animation_update` returns the data after the frame, the writes of the frame in program
  order, and whether `animation_unschedule` was called.
-/

namespace SlidingText

/-- The `SlideState` enumeration. -/
inductive SlideState where
  | MOVING_IN
  | IN_FRAME
  | PREPARE_TO_MOVE
  | MOVING_OUT
  deriving DecidableEq, Repr

open SlideState

/-- The string slots of `SlidingTextRenderState`: `hours[i]`, `first_minutes[i]` and
`second_minutes[i]`. -/
inductive Buf where
  | hours (i : Nat)
  | first_minutes (i : Nat)
  | second_minutes (i : Nat)
  deriving DecidableEq, Repr

structure GPoint where
  x : Int
  y : Int
  deriving DecidableEq, Repr

structure GSize where
  w : Int
  h : Int
  deriving DecidableEq, Repr

structure GRect where
  origin : GPoint
  size : GSize
  deriving DecidableEq, Repr

/-- The part of a text layer the program reads and writes: the text pointer and the frame. -/
structure TextLayer where
  text : Option Buf
  frame : GRect
  deriving DecidableEq, Repr

/-- A layer made by `text_layer_create(pos)`: frame `pos`, no text. -/
def text_layer_create (pos : GRect) : TextLayer :=
  { text := none, frame := pos }

/-- The effect of `text_layer_set_text(label, text)`. -/
def text_layer_set_text (label : TextLayer) (text : Option Buf) : TextLayer :=
  { label with text := text }

/-- The effect of `layer_set_frame(text_layer_get_layer(label), frame)`. -/
def layer_set_frame (label : TextLayer) (frame : GRect) : TextLayer :=
  { label with frame := frame }

structure SlidingRow where
  label : TextLayer
  state : SlideState
  next_string : Option Buf
  unchanged_font : Bool
  left_pos : Int
  right_pos : Int
  still_pos : Int
  movement_delay : Int
  delay_count : Int
  deriving DecidableEq, Repr

/-- The index fields of `SlidingTextRenderState` (both are `uint8_t`). -/
structure SlidingTextRenderState where
  next_hours : Nat
  next_minutes : Nat
  deriving DecidableEq, Repr

/-- The fields of `SlidingTextData` that the row machine and the frame driver use;
`rows0`, `rows1`, `rows2` are `rows[0]`, `rows[1]`, `rows[2]`. -/
structure SlidingTextData where
  rows0 : SlidingRow
  rows1 : SlidingRow
  rows2 : SlidingRow
  last_hour : Int
  last_minute : Int
  render_state : SlidingTextRenderState
  deriving DecidableEq, Repr

/-- The two fields of `struct tm` that the frame driver reads. -/
structure Tm where
  tm_hour : Int
  tm_min : Int
  deriving DecidableEq, Repr

/-- The function `init_sliding_row(data, row, pos, font, delay)`: every field of the row is assigned,
and `data->last_hour`, `data->last_minute` are set to -1.  `font` says whether the font
argument is non-null. -/
def init_sliding_row (data : SlidingTextData) (pos : GRect) (font : Bool) (delay : Int) :
    SlidingTextData × SlidingRow :=
  let row : SlidingRow :=
    { label := text_layer_create pos
      unchanged_font := if font then true else false
      state := IN_FRAME
      next_string := none
      left_pos := -pos.size.w
      right_pos := pos.size.w
      still_pos := pos.origin.x
      movement_delay := delay
      delay_count := 0 }
  ({ data with last_hour := -1, last_minute := -1 }, row)

/-- The function `slide_in_text(data, row, new_text)`. -/
def slide_in_text (row : SlidingRow) (new_text : Option Buf) : SlidingRow :=
  match row.label.text with
  | some _ => { row with next_string := new_text, state := PREPARE_TO_MOVE }
  | none =>
    let label := text_layer_set_text row.label new_text
    let frame := label.frame
    let frame := { frame with origin := { frame.origin with x := row.right_pos } }
    { row with label := layer_set_frame label frame, state := MOVING_IN }

/-- The value an `int16_t` holds after it is assigned the integer `v`: `v` modulo `2^16`,
between -32768 and 32767. -/
def wrap16 (v : Int) : Int :=
  (v + 32768) % 65536 - 32768

/-- The value an `int` holds after it is assigned the integer `v`: `v` modulo `2^32`,
between -2147483648 and 2147483647. -/
def wrap32 (v : Int) : Int :=
  (v + 2147483648) % 4294967296 - 2147483648

/-- The function `update_sliding_row(data, row)`: the row after the call and the returned
`something_changed`.  The dividend of the speed is an absolute value, so the C division
is the floor division.  `frame.origin.x` is an `int16_t`, so `frame.origin.x -= speed`
stores the difference modulo `2^16`; `delay_count` is an `int`, and `delay_count++` at
`INT_MAX` is taken to wrap to `INT_MIN`. -/
def update_sliding_row (row : SlidingRow) : SlidingRow × Bool :=
  let frame := row.label.frame
  match row.state with
  | PREPARE_TO_MOVE =>
    let frame := { frame with origin := { frame.origin with x := row.still_pos } }
    let row := { row with delay_count := wrap32 (row.delay_count + 1) }
    let row :=
      if row.delay_count > row.movement_delay then
        { row with state := MOVING_OUT, delay_count := 0 }
      else row
    ({ row with label := layer_set_frame row.label frame }, true)
  | MOVING_IN =>
    let speed := |frame.origin.x - row.still_pos| / 3 + 1
    let frame :=
      { frame with origin := { frame.origin with x := wrap16 (frame.origin.x - speed) } }
    if frame.origin.x ≤ row.still_pos then
      let frame := { frame with origin := { frame.origin with x := row.still_pos } }
      let row := { row with state := IN_FRAME }
      ({ row with label := layer_set_frame row.label frame }, true)
    else
      ({ row with label := layer_set_frame row.label frame }, true)
  | MOVING_OUT =>
    let speed := |frame.origin.x - row.still_pos| / 3 + 1
    let frame :=
      { frame with origin := { frame.origin with x := wrap16 (frame.origin.x - speed) } }
    if frame.origin.x ≤ row.left_pos then
      let frame := { frame with origin := { frame.origin with x := row.right_pos } }
      let row := { row with state := MOVING_IN }
      let row := { row with label := text_layer_set_text row.label row.next_string }
      let row := { row with next_string := none }
      ({ row with label := layer_set_frame row.label frame }, true)
    else
      ({ row with label := layer_set_frame row.label frame }, true)
  | IN_FRAME => (row, false)

/-- One call of a formatter on a destination slot: the slot, and the three rows as they
are when the formatter runs. -/
structure Write where
  slot : Buf
  rows : List SlidingRow
  deriving DecidableEq, Repr

/-- The toggle `n ? 0 : 1` of a slot index. -/
def toggle (n : Nat) : Nat :=
  if n ≠ 0 then 0 else 1

/-- Lines 162-176 of `animation_update`: the minute branch.  Returns the data after the
branch and the writes of `minute_to_formal_words`.  The two quotients are C divisions
(truncating). -/
def minute_part (data : SlidingTextData) (t : Tm) : SlidingTextData × List Write :=
  let rs := data.render_state
  if data.last_minute ≠ t.tm_min then
    let rows := [data.rows0, data.rows1, data.rows2]
    let writes : List Write :=
      [⟨Buf.first_minutes rs.next_minutes, rows⟩, ⟨Buf.second_minutes rs.next_minutes, rows⟩]
    let data :=
      if data.last_hour ≠ t.tm_hour ∨ t.tm_min ≤ 20
          ∨ Int.tdiv t.tm_min 10 ≠ Int.tdiv data.last_minute 10 then
        { data with rows1 := slide_in_text data.rows1 (some (Buf.first_minutes rs.next_minutes)) }
      else
        { data with rows1 :=
            { data.rows1 with
              label := text_layer_set_text data.rows1.label
                (some (Buf.first_minutes rs.next_minutes)) } }
    let data :=
      { data with rows2 := slide_in_text data.rows2 (some (Buf.second_minutes rs.next_minutes)) }
    let data :=
      { data with render_state := { rs with next_minutes := toggle rs.next_minutes } }
    ({ data with last_minute := t.tm_min }, writes)
  else
    (data, [])

/-- Lines 178-183 of `animation_update`: the hour branch. -/
def hour_part (data : SlidingTextData) (t : Tm) : SlidingTextData × List Write :=
  let rs := data.render_state
  if data.last_hour ≠ t.tm_hour then
    let writes : List Write :=
      [⟨Buf.hours rs.next_hours, [data.rows0, data.rows1, data.rows2]⟩]
    let data :=
      { data with rows0 := slide_in_text data.rows0 (some (Buf.hours rs.next_hours)) }
    let data :=
      { data with render_state := { rs with next_hours := toggle rs.next_hours } }
    ({ data with last_hour := t.tm_hour }, writes)
  else
    (data, [])

/-- The data after the time handling of a frame (lines 162-183), before the rows are
advanced. -/
def time_part (data : SlidingTextData) (t : Tm) : SlidingTextData :=
  (hour_part (minute_part data t).1 t).1

/-- The outcome of one call of `animation_update`. -/
structure Frame where
  data : SlidingTextData
  writes : List Write
  unscheduled : Bool
  deriving DecidableEq, Repr

/-- The frame callback `animation_update`, with the clock reading `t` of the frame as an argument. -/
def animation_update (data : SlidingTextData) (t : Tm) : Frame :=
  let something_changed := false
  let something_changed := if data.last_minute ≠ t.tm_min then true else something_changed
  let m := minute_part data t
  let h := hour_part m.1 t
  let data := h.1
  let u0 := update_sliding_row data.rows0
  let something_changed := u0.2 || something_changed
  let u1 := update_sliding_row data.rows1
  let something_changed := u1.2 || something_changed
  let u2 := update_sliding_row data.rows2
  let something_changed := u2.2 || something_changed
  { data := { data with rows0 := u0.1, rows1 := u1.1, rows2 := u2.1 }
    writes := m.2 ++ h.2
    unscheduled := !something_changed }

/-- The part of `handle_init` that builds the driver state, on a window `width` wide.
`mem` is the memory `malloc` returned and `round` tells the round display (`PBL_ROUND`)
from the rectangular one. -/
def handle_init (mem : SlidingTextData) (width : Int) (round : Bool) : SlidingTextData :=
  let data := { mem with render_state := { next_hours := 0, next_minutes := 0 } }
  let r0 := init_sliding_row data ⟨⟨0, if round then 14 else 6⟩, ⟨width, 60⟩⟩ true 6
  let data := { r0.1 with rows0 := r0.2 }
  let r1 := init_sliding_row data ⟨⟨0, if round then 50 else 42⟩, ⟨width, 96⟩⟩ true 3
  let data := { r1.1 with rows1 := r1.2 }
  let r2 := init_sliding_row data ⟨⟨0, if round then 86 else 78⟩, ⟨width, 132⟩⟩ true 0
  { r2.1 with rows2 := r2.2 }

/-- The data after a run of frames, one clock reading per frame. -/
def run (data : SlidingTextData) : List Tm → SlidingTextData
  | [] => data
  | t :: ts => run (animation_update data t).data ts

/-- The writes of a run of frames, in program order. -/
def run_writes (data : SlidingTextData) : List Tm → List Write
  | [] => []
  | t :: ts => (animation_update data t).writes ++ run_writes (animation_update data t).data ts

/-- The slot is the displayed text or the pending text of the row. -/
def holds (row : SlidingRow) (b : Buf) : Bool :=
  row.label.text == some b || row.next_string == some b

/-- A write lands in a slot that one of the rows displays or has pending when the
formatter runs. -/
def Write.in_use (w : Write) : Bool :=
  w.rows.any fun row => holds row w.slot

/-- The row after `n` successive calls of `update_sliding_row`. -/
def advance : Nat → SlidingRow → SlidingRow
  | 0, row => row
  | n + 1, row => advance n (update_sliding_row row).1

/-- The position a moving row steps to before the test of its branch: the `int16_t` that
`frame.origin.x -= speed` stores, with `speed = |x - still_pos| / 3 + 1`. -/
def stepped (row : SlidingRow) : Int :=
  wrap16 (row.label.frame.origin.x - (|row.label.frame.origin.x - row.still_pos| / 3 + 1))

/-- The counter of a waiting row after `delay_count++`. -/
def counted (row : SlidingRow) : Int :=
  wrap32 (row.delay_count + 1)

/-- No transition is pending on the rows of a field whose clock value is about to change:
if the minute differs from `last_minute` then `rows[1]` and `rows[2]` have no pending
text, and if the hour differs from `last_hour` then `rows[0]` has none. -/
def Settled (data : SlidingTextData) (t : Tm) : Prop :=
  (data.last_minute ≠ t.tm_min →
    data.rows1.next_string = none ∧ data.rows2.next_string = none) ∧
  (data.last_hour ≠ t.tm_hour → data.rows0.next_string = none)

instance (data : SlidingTextData) (t : Tm) : Decidable (Settled data t) := by
  unfold Settled; infer_instance

/-- Every frame of the run starts `Settled` for its clock reading. -/
def Paced (data : SlidingTextData) : List Tm → Prop
  | [] => True
  | t :: ts => Settled data t ∧ Paced (animation_update data t).data ts

instance decPaced : (data : SlidingTextData) → (ts : List Tm) → Decidable (Paced data ts)
  | _, [] => isTrue trivial
  | data, t :: ts =>
    have := decPaced (animation_update data t).data ts
    inferInstanceAs (Decidable (Settled data t ∧ Paced (animation_update data t).data ts))

/-- How a row stands to the slots `f 0`, `f 1` of its field when `n` is the index of the
next write: a pending text is the slot written last, and the displayed text is that slot
too, or the other one while a text is pending. -/
def RowInv (f : Nat → Buf) (n : Nat) (row : SlidingRow) : Prop :=
  (row.next_string = none ∨ row.next_string = some (f (toggle n))) ∧
  (row.label.text = none ∨ row.label.text = some (f (toggle n)) ∨
    (row.label.text = some (f n) ∧ row.next_string = some (f (toggle n))))

/-- The slot discipline of the driver state. -/
def Inv (data : SlidingTextData) : Prop :=
  data.render_state.next_hours ≤ 1 ∧ data.render_state.next_minutes ≤ 1 ∧
  RowInv Buf.hours data.render_state.next_hours data.rows0 ∧
  RowInv Buf.first_minutes data.render_state.next_minutes data.rows1 ∧
  RowInv Buf.second_minutes data.render_state.next_minutes data.rows2

/-- Some memory for `handle_init` to fill in. -/
def mem0 : SlidingTextData :=
  let row : SlidingRow :=
    { label := text_layer_create ⟨⟨0, 0⟩, ⟨0, 0⟩⟩, state := MOVING_IN, next_string := none,
      unchanged_font := false, left_pos := 0, right_pos := 0, still_pos := 0,
      movement_delay := 0, delay_count := 0 }
  { rows0 := row, rows1 := row, rows2 := row, last_hour := 0, last_minute := 0,
    render_state := { next_hours := 7, next_minutes := 7 } }


/-- Clock readings of a watch at rest through two minute changes: twelve frames at 9:05
(first population), forty at 9:06, forty at 9:07. -/
def calm_readings : List Tm :=
  List.replicate 12 ⟨9, 5⟩ ++ List.replicate 40 ⟨9, 6⟩ ++ List.replicate 40 ⟨9, 7⟩

/-- The hour row right after its first population: `MOVING_IN` at `right_pos`. -/
def row_entering : SlidingRow :=
  slide_in_text (handle_init mem0 144 false).rows0 (some (Buf.hours 0))

/-- The hour row at the start of its exit slide: a second text was requested and the
seven frames of its delay have passed. -/
def row_leaving : SlidingRow :=
  advance 7 (slide_in_text row_entering (some (Buf.hours 1)))

/-- The three things the program does to a row after `init_sliding_row`: a call of
`slide_in_text`, the silent swap of line 171 (`text_layer_set_text` on the label alone),
and a call of `update_sliding_row`. -/
inductive RowOp where
  | slide (new_text : Option Buf)
  | swap (text : Option Buf)
  | update
  deriving DecidableEq, Repr

/-- The row after one operation. -/
def apply_op (row : SlidingRow) : RowOp → SlidingRow
  | RowOp.slide new_text => slide_in_text row new_text
  | RowOp.swap text => { row with label := text_layer_set_text row.label text }
  | RowOp.update => (update_sliding_row row).1

/-- The row after a sequence of operations, first to last. -/
def run_ops (row : SlidingRow) : List RowOp → SlidingRow
  | [] => row
  | op :: ops => run_ops (apply_op row op) ops

/-- The operation passes no null text. -/
def RowOp.nonnull : RowOp → Bool
  | RowOp.slide new_text => new_text.isSome
  | RowOp.swap text => text.isSome
  | RowOp.update => true

/-- The pending text goes with the state: none in `MOVING_IN` and `IN_FRAME`; in
`PREPARE_TO_MOVE` and `MOVING_OUT` there is one, and a displayed text too. -/
def RowOk (row : SlidingRow) : Prop :=
  ((row.state = MOVING_IN ∨ row.state = IN_FRAME) → row.next_string = none) ∧
  ((row.state = PREPARE_TO_MOVE ∨ row.state = MOVING_OUT) →
    row.next_string ≠ none ∧ row.label.text ≠ none)

/-- Each of the first `n` calls of `update_sliding_row` on the row returns true. -/
def busy (n : Nat) (row : SlidingRow) : Prop :=
  ∀ k, k < n → (update_sliding_row (advance k row)).2 = true

/-- The indexes of the writes to `hours`, in order. -/
def hour_slots (ws : List Write) : List Nat :=
  ws.filterMap fun w => match w.slot with
    | Buf.hours i => some i
    | _ => none

/-- The indexes of the writes to `first_minutes`, in order. -/
def first_minute_slots (ws : List Write) : List Nat :=
  ws.filterMap fun w => match w.slot with
    | Buf.first_minutes i => some i
    | _ => none

/-- The indexes of the writes to `second_minutes`, in order. -/
def second_minute_slots (ws : List Write) : List Nat :=
  ws.filterMap fun w => match w.slot with
    | Buf.second_minutes i => some i
    | _ => none

/-- The list `n, toggle n, toggle (toggle n), ...` of length `k`. -/
def alternate (n : Nat) : Nat → List Nat
  | 0 => []
  | k + 1 => n :: alternate (toggle n) k

/-- The clock reading of a frame differs from the recorded one only if the frame starts
with all three rows in `IN_FRAME`. -/
def Idle (data : SlidingTextData) (t : Tm) : Prop :=
  (data.last_hour ≠ t.tm_hour ∨ data.last_minute ≠ t.tm_min) →
    data.rows0.state = IN_FRAME ∧ data.rows1.state = IN_FRAME ∧ data.rows2.state = IN_FRAME

instance (data : SlidingTextData) (t : Tm) : Decidable (Idle data t) := by
  unfold Idle; infer_instance

/-- Every frame of the run is `Idle` for its clock reading. -/
def IdlePaced (data : SlidingTextData) : List Tm → Prop
  | [] => True
  | t :: ts => Idle data t ∧ IdlePaced (animation_update data t).data ts

instance decIdlePaced :
    (data : SlidingTextData) → (ts : List Tm) → Decidable (IdlePaced data ts)
  | _, [] => isTrue trivial
  | data, t :: ts =>
    have := decIdlePaced (animation_update data t).data ts
    inferInstanceAs (Decidable (Idle data t ∧ IdlePaced (animation_update data t).data ts))

/-- The row displays no text or the given slot. -/
def shows_only (row : SlidingRow) (b : Buf) : Prop :=
  row.label.text = none ∨ row.label.text = some b

/-- Whether the row is in state `s` before each of the next `c` calls of
`update_sliding_row`. -/
def stays (s : SlideState) : Nat → SlidingRow → Bool
  | 0, _ => true
  | c + 1, row => decide (row.state = s) && stays s c (update_sliding_row row).1

/-- The hour row of a 32767 wide layer, at rest after its first population. -/
def wide_row_at_rest : SlidingRow :=
  advance 24 (slide_in_text (handle_init mem0 32767 false).rows0 (some (Buf.hours 0)))

/-- The hour row of a 32767 wide layer at the start of its exit slide. -/
def wide_row_leaving : SlidingRow :=
  advance 7 (slide_in_text wide_row_at_rest (some (Buf.hours 1)))

/-- A row made by `init_sliding_row` with the delay `INT_MAX`, at rest after its first
population. -/
def lazy_row_at_rest : SlidingRow :=
  advance 12 (slide_in_text (init_sliding_row mem0 ⟨⟨0, 6⟩, ⟨144, 60⟩⟩ true 2147483647).2
    (some (Buf.hours 0)))

/-! The row machine. -/

/-- C5: on a row whose layer holds no text, `slide_in_text` shows the new text at once,
puts the row at `right_pos` and in `MOVING_IN`; the pending text is left as it was and the
row enters neither `PREPARE_TO_MOVE` nor `MOVING_OUT`. -/
theorem slide_in_text_first_population (row : SlidingRow) (new_text : Option Buf)
    (h : row.label.text = none) :
    (slide_in_text row new_text).label.text = new_text ∧
    (slide_in_text row new_text).label.frame.origin.x = row.right_pos ∧
    (slide_in_text row new_text).state = MOVING_IN ∧
    (slide_in_text row new_text).next_string = row.next_string ∧
    (slide_in_text row new_text).state ≠ PREPARE_TO_MOVE ∧
    (slide_in_text row new_text).state ≠ MOVING_OUT := by
  simp [slide_in_text, h, text_layer_set_text, layer_set_frame]

theorem slide_in_text_first_population_witness :
    (handle_init mem0 144 false).rows0.label.text = none ∧
    (slide_in_text (handle_init mem0 144 false).rows0 (some (Buf.hours 0))).label.text
      = some (Buf.hours 0) ∧
    (slide_in_text (handle_init mem0 144 false).rows0 (some (Buf.hours 0))).state = MOVING_IN :=
  ⟨by decide,
   (slide_in_text_first_population (handle_init mem0 144 false).rows0
    (some (Buf.hours 0)) (by decide)).1,
   (slide_in_text_first_population (handle_init mem0 144 false).rows0
    (some (Buf.hours 0)) (by decide)).2.2.1⟩

/-- C6: on a row that displays a text, in whatever state, `slide_in_text` stores the new
text as the pending text and sets `PREPARE_TO_MOVE`; the displayed text and the frame
(so the position) are untouched.  Of two calls in a row, with no advance in between, the
pending text of the second one survives. -/
theorem slide_in_text_replaces (row : SlidingRow) (old : Buf) (new_text : Option Buf)
    (h : row.label.text = some old) :
    (slide_in_text row new_text).next_string = new_text ∧
    (slide_in_text row new_text).state = PREPARE_TO_MOVE ∧
    (slide_in_text row new_text).label.text = some old ∧
    (slide_in_text row new_text).label.frame = row.label.frame ∧
    ∀ t1 t2 : Option Buf,
      (slide_in_text (slide_in_text row t1) t2).next_string = t2 ∧
      (slide_in_text (slide_in_text row t1) t2).state = PREPARE_TO_MOVE ∧
      (slide_in_text (slide_in_text row t1) t2).label = row.label := by
  simp [slide_in_text, h]

theorem slide_in_text_replaces_witness :
    row_entering.label.text = some (Buf.hours 0) ∧
    (slide_in_text row_entering (some (Buf.hours 1))).next_string = some (Buf.hours 1) ∧
    (slide_in_text (slide_in_text row_entering (some (Buf.hours 1)))
      (some (Buf.hours 0))).next_string = some (Buf.hours 0) :=
  ⟨by decide,
   (slide_in_text_replaces row_entering (Buf.hours 0) (some (Buf.hours 1)) (by decide)).1,
   ((slide_in_text_replaces row_entering (Buf.hours 0) (some (Buf.hours 1))
      (by decide)).2.2.2.2 (some (Buf.hours 1)) (some (Buf.hours 0))).1⟩

theorem advance_succ (n : Nat) (row : SlidingRow) :
    advance (n + 1) row = advance n (update_sliding_row row).1 := rfl

theorem update_prepare_wait (row : SlidingRow) (h : row.state = PREPARE_TO_MOVE)
    (hc : counted row ≤ row.movement_delay) :
    (update_sliding_row row).1 =
      { row with
        delay_count := counted row
        label := layer_set_frame row.label
          { row.label.frame with origin := { row.label.frame.origin with x := row.still_pos } } } := by
  unfold counted at hc ⊢
  have hc2 : ¬ (wrap32 (row.delay_count + 1) > row.movement_delay) := by omega
  simp [update_sliding_row, h, hc2]

theorem update_prepare_go (row : SlidingRow) (h : row.state = PREPARE_TO_MOVE)
    (hc : row.movement_delay < counted row) :
    (update_sliding_row row).1 =
      { row with
        state := MOVING_OUT
        delay_count := 0
        label := layer_set_frame row.label
          { row.label.frame with origin := { row.label.frame.origin with x := row.still_pos } } } := by
  unfold counted at hc
  simp [update_sliding_row, h, hc]

theorem wrap16_eq (v : Int) (h1 : -32768 ≤ v) (h2 : v ≤ 32767) : wrap16 v = v := by
  unfold wrap16; omega

theorem wrap32_eq (v : Int) (h1 : -2147483648 ≤ v) (h2 : v ≤ 2147483647) : wrap32 v = v := by
  unfold wrap32; omega

theorem wrap32_le (v : Int) : wrap32 v ≤ 2147483647 := by
  unfold wrap32; omega

theorem counted_eq (row : SlidingRow) (h0 : 0 ≤ row.delay_count)
    (h1 : row.delay_count < 2147483647) : counted row = row.delay_count + 1 := by
  unfold counted
  exact wrap32_eq _ (by omega) (by omega)

/-- While the counter stays within the delay the row waits in `PREPARE_TO_MOVE` at
`still_pos`. -/
theorem advance_prepare_wait (k : Nat) (row : SlidingRow) (h : row.state = PREPARE_TO_MOVE)
    (h0 : 0 ≤ row.delay_count) (hm : row.movement_delay ≤ 2147483647)
    (hc : row.delay_count + (k + 1) ≤ row.movement_delay) :
    (advance (k + 1) row).state = PREPARE_TO_MOVE ∧
    (advance (k + 1) row).label.frame.origin.x = row.still_pos ∧
    (advance (k + 1) row).delay_count = row.delay_count + (k + 1) ∧
    (advance (k + 1) row).movement_delay = row.movement_delay ∧
    (advance (k + 1) row).still_pos = row.still_pos ∧
    (advance (k + 1) row).left_pos = row.left_pos ∧
    (advance (k + 1) row).label.text = row.label.text ∧
    (advance (k + 1) row).next_string = row.next_string := by
  induction k generalizing row with
  | zero =>
    have hce := counted_eq row h0 (by omega)
    have hup := update_prepare_wait row h (by rw [hce]; simpa using hc)
    rw [hce] at hup
    simp [advance, hup, layer_set_frame, h]
  | succ k ih =>
    have hce := counted_eq row h0 (by omega)
    have hup := update_prepare_wait row h (by rw [hce]; push_cast at hc; omega)
    rw [hce] at hup
    rw [advance_succ, hup]
    have := ih { row with
        delay_count := row.delay_count + 1
        label := layer_set_frame row.label
          { row.label.frame with origin := { row.label.frame.origin with x := row.still_pos } } }
      h (by show 0 ≤ row.delay_count + 1; omega) hm (by push_cast at hc ⊢; omega)
    obtain ⟨h1, h2, h3, h4, h5, h6, h7, h8⟩ := this
    refine ⟨h1, h2, ?_, h4, h5, h6, h7, h8⟩
    rw [h3]; push_cast; ring

theorem advance_add (a b : Nat) : ∀ row : SlidingRow,
    advance (a + b) row = advance b (advance a row) := by
  induction a with
  | zero => intro row; simp [advance]
  | succ a ih =>
    intro row
    rw [Nat.add_right_comm, advance_succ, ih, advance_succ]

theorem stays_spec (s : SlideState) (c : Nat) : ∀ row : SlidingRow, stays s c row = true →
    ∀ k, k < c → (advance k row).state = s := by
  induction c with
  | zero => intro row _ k hk; omega
  | succ c ih =>
    intro row h k hk
    simp only [stays, Bool.and_eq_true, decide_eq_true_eq] at h
    cases k with
    | zero => exact h.1
    | succ k => rw [advance_succ]; exact ih _ h.2 k (by omega)

/-- A row that is back where it was after `c` calls, in state `s` all the way, is in
state `s` after any number of calls. -/
theorem cycle_states (c : Nat) (row : SlidingRow) (s : SlideState) (hc : 0 < c)
    (hcyc : advance c row = row) (hst : ∀ k, k < c → (advance k row).state = s) :
    ∀ n, (advance n row).state = s := by
  intro n
  induction n using Nat.strong_induction_on with
  | _ n ih =>
    by_cases h : n < c
    · exact hst n h
    · obtain ⟨m, rfl⟩ : ∃ m, n = c + m := ⟨n - c, by omega⟩
      rw [advance_add, hcyc]
      exact ih m (by omega)

/-- With a delay of `INT_MAX` the test `delay_count > movement_delay` never holds: the row
waits for ever. -/
theorem prepare_forever (n : Nat) : ∀ row : SlidingRow, row.state = PREPARE_TO_MOVE →
    row.movement_delay = 2147483647 → (advance n row).state = PREPARE_TO_MOVE := by
  induction n with
  | zero => intro row h _; exact h
  | succ n ih =>
    intro row h hd
    have hup := update_prepare_wait row h (by rw [hd]; exact wrap32_le _)
    rw [advance_succ]
    exact ih _ (by rw [hup]; exact h) (by rw [hup]; exact hd)

set_option maxRecDepth 100000 in
/-- On the 32767 wide layer the exit slide of the hour row wraps at -27559 and is back at
0 after 58 calls: the row never leaves `MOVING_OUT`. -/
theorem wide_row_never_leaves (n : Nat) : (advance n wide_row_leaving).state = MOVING_OUT :=
  cycle_states 58 wide_row_leaving MOVING_OUT (by decide) (by decide)
    (stays_spec MOVING_OUT 58 wide_row_leaving (by decide)) n

theorem advance_add_one (n : Nat) (row : SlidingRow) :
    advance (n + 1) row = (update_sliding_row (advance n row)).1 := by
  induction n generalizing row with
  | zero => rfl
  | succ n ih => rw [advance_succ, ih, advance_succ]

theorem update_moving_in_clamp (row : SlidingRow) (h : row.state = MOVING_IN)
    (hx : stepped row ≤ row.still_pos) :
    (update_sliding_row row).1 =
      { row with
        state := IN_FRAME
        label := layer_set_frame row.label
          { row.label.frame with origin := { row.label.frame.origin with x := row.still_pos } } } := by
  unfold stepped at hx
  simp [update_sliding_row, h, hx]

theorem update_moving_in_go (row : SlidingRow) (h : row.state = MOVING_IN)
    (hx : row.still_pos < stepped row) :
    (update_sliding_row row).1 =
      { row with
        label := layer_set_frame row.label
          { row.label.frame with origin := { row.label.frame.origin with x := stepped row } } } := by
  unfold stepped at hx ⊢
  have hx2 : ¬ (wrap16 (row.label.frame.origin.x
      - (|row.label.frame.origin.x - row.still_pos| / 3 + 1)) ≤ row.still_pos) := by omega
  simp [update_sliding_row, h, hx2]

theorem update_moving_out_wrap (row : SlidingRow) (h : row.state = MOVING_OUT)
    (hx : stepped row ≤ row.left_pos) :
    (update_sliding_row row).1 =
      { row with
        state := MOVING_IN
        next_string := none
        label := layer_set_frame (text_layer_set_text row.label row.next_string)
          { row.label.frame with origin := { row.label.frame.origin with x := row.right_pos } } } := by
  unfold stepped at hx
  simp [update_sliding_row, h, hx, layer_set_frame, text_layer_set_text]

theorem update_moving_out_go (row : SlidingRow) (h : row.state = MOVING_OUT)
    (hx : row.left_pos < stepped row) :
    (update_sliding_row row).1 =
      { row with
        label := layer_set_frame row.label
          { row.label.frame with origin := { row.label.frame.origin with x := stepped row } } } := by
  unfold stepped at hx ⊢
  have hx2 : ¬ (wrap16 (row.label.frame.origin.x
      - (|row.label.frame.origin.x - row.still_pos| / 3 + 1)) ≤ row.left_pos) := by omega
  simp [update_sliding_row, h, hx2]

theorem update_in_frame (row : SlidingRow) (h : row.state = IN_FRAME) :
    update_sliding_row row = (row, false) := by
  simp [update_sliding_row, h]

/-- Within the range of a screen the step of a moving row does not wrap: the stepped
position is `x - (|x - still_pos| / 3 + 1)`, left of `x`. -/
theorem stepped_in_range (row : SlidingRow)
    (hx1 : -16384 ≤ row.label.frame.origin.x) (hx2 : row.label.frame.origin.x ≤ 16384)
    (hs1 : -16384 ≤ row.still_pos) (hs2 : row.still_pos ≤ 16384) :
    stepped row
      = row.label.frame.origin.x - (|row.label.frame.origin.x - row.still_pos| / 3 + 1) ∧
    stepped row < row.label.frame.origin.x ∧ -32768 ≤ stepped row := by
  have h0 := abs_nonneg (row.label.frame.origin.x - row.still_pos)
  have h1 : |row.label.frame.origin.x - row.still_pos| ≤ 32768 :=
    abs_le.mpr ⟨by omega, by omega⟩
  have he : stepped row
      = row.label.frame.origin.x - (|row.label.frame.origin.x - row.still_pos| / 3 + 1) := by
    unfold stepped
    exact wrap16_eq _ (by omega) (by omega)
  rw [he]
  exact ⟨rfl, by omega, by omega⟩

/-- A row moving in from the right of its rest position arrives there, clamped, within as
many calls as the distance. -/
theorem moving_in_arrives (d : Nat) : ∀ row : SlidingRow, row.state = MOVING_IN →
    row.label.frame.origin.x - row.still_pos = (d : Int) + 1 →
    -32768 ≤ row.still_pos → row.label.frame.origin.x ≤ 32767 →
    ∃ n : Nat, 1 ≤ n ∧ n ≤ d + 1 ∧
      (advance n row).label.frame.origin.x = row.still_pos ∧
      (advance n row).state = IN_FRAME ∧
      (∀ k, k < n → (advance k row).state = MOVING_IN) ∧
      (∀ k, k ≤ n → row.still_pos ≤ (advance k row).label.frame.origin.x) := by
  induction d using Nat.strong_induction_on with
  | _ d ih =>
    intro row hs hd hlo hhi
    have habs : |row.label.frame.origin.x - row.still_pos| = (d : Int) + 1 := by
      rw [hd]; exact abs_of_nonneg (by omega)
    have hstep : stepped row = row.label.frame.origin.x - (((d : Int) + 1) / 3 + 1) := by
      unfold stepped; rw [habs]
      exact wrap16_eq _ (by omega) (by omega)
    by_cases hx : stepped row ≤ row.still_pos
    · refine ⟨1, le_refl 1, by omega, ?_, ?_, ?_, ?_⟩
      · simp [advance, update_moving_in_clamp row hs hx, layer_set_frame]
      · simp [advance, update_moving_in_clamp row hs hx]
      · intro k hk
        have : k = 0 := by omega
        subst this; exact hs
      · intro k hk
        have : k = 0 ∨ k = 1 := by omega
        rcases this with rfl | rfl
        · simp only [advance]; omega
        · simp [advance, update_moving_in_clamp row hs hx, layer_set_frame]
    · have hx2 : row.still_pos < stepped row := by omega
      have hup := update_moving_in_go row hs hx2
      obtain ⟨e, he⟩ : ∃ e : Nat, stepped row - row.still_pos = (e : Int) + 1 :=
        ⟨(stepped row - row.still_pos - 1).toNat, by omega⟩
      have hed : e < d := by omega
      obtain ⟨n, hn1, hn2, hnx, hns, hnk, hnp⟩ :=
        ih e hed (update_sliding_row row).1 (by rw [hup]; exact hs)
          (by rw [hup]; simpa [layer_set_frame] using he)
          (by rw [hup]; exact hlo)
          (by rw [hup]; show stepped row ≤ 32767; omega)
      have hstill : (update_sliding_row row).1.still_pos = row.still_pos := by rw [hup]
      refine ⟨n + 1, by omega, by omega, ?_, ?_, ?_, ?_⟩
      · rw [advance_succ, hnx, hstill]
      · rw [advance_succ, hns]
      · intro k hk
        cases k with
        | zero => exact hs
        | succ k => rw [advance_succ]; exact hnk k (by omega)
      · intro k hk
        cases k with
        | zero => simp only [advance]; omega
        | succ k => rw [advance_succ, ← hstill]; exact hnp k (by omega)

/-- A row moving out from the right of its exit position gets to it, or beyond, within as
many calls as the distance, and turns to `MOVING_IN` at that call. -/
theorem moving_out_leaves (d : Nat) : ∀ row : SlidingRow, row.state = MOVING_OUT →
    row.label.frame.origin.x - row.left_pos = (d : Int) + 1 →
    -16384 ≤ row.left_pos → row.label.frame.origin.x ≤ 16384 →
    -16384 ≤ row.still_pos → row.still_pos ≤ 16384 →
    ∃ n : Nat, n ≤ d ∧
      (∀ k, k ≤ n → (advance k row).state = MOVING_OUT) ∧
      stepped (advance n row) ≤ row.left_pos ∧
      (advance (n + 1) row).state = MOVING_IN := by
  induction d using Nat.strong_induction_on with
  | _ d ih =>
    intro row hs hd hl hx2 hs1 hs2
    by_cases hx : stepped row ≤ row.left_pos
    · refine ⟨0, by omega, ?_, hx, ?_⟩
      · intro k hk
        have : k = 0 := by omega
        subst this; exact hs
      · simp [advance, update_moving_out_wrap row hs hx]
    · have hgt : row.left_pos < stepped row := by omega
      have hup := update_moving_out_go row hs hgt
      obtain ⟨-, hsp, -⟩ := stepped_in_range row (by omega) hx2 hs1 hs2
      obtain ⟨e, he⟩ : ∃ e : Nat, stepped row - row.left_pos = (e : Int) + 1 :=
        ⟨(stepped row - row.left_pos - 1).toNat, by omega⟩
      have hed : e < d := by omega
      obtain ⟨n, hn1, hnk, hnx, hns⟩ :=
        ih e hed (update_sliding_row row).1 (by rw [hup]; exact hs)
          (by rw [hup]; simpa [layer_set_frame] using he)
          (by rw [hup]; exact hl)
          (by rw [hup]; show stepped row ≤ 16384; omega)
          (by rw [hup]; exact hs1) (by rw [hup]; exact hs2)
      have hleft : (update_sliding_row row).1.left_pos = row.left_pos := by rw [hup]
      refine ⟨n + 1, by omega, ?_, ?_, ?_⟩
      · intro k hk
        cases k with
        | zero => exact hs
        | succ k => rw [advance_succ]; exact hnk k (by omega)
      · rw [advance_succ, ← hleft]; exact hnx
      · rw [advance_succ]; exact hns

/-- C7 fails as stated: a row made by `init_sliding_row` with the delay `INT_MAX`, at rest
in `IN_FRAME` with a text and counter 0, is given a new text; the counter is an `int` and
never exceeds the delay, so call `d + 1` of `update_sliding_row`, like every other call,
leaves the row in `PREPARE_TO_MOVE`. -/
theorem prepare_holds_for_delay_counterexample :
    lazy_row_at_rest.state = IN_FRAME ∧
    lazy_row_at_rest.label.text = some (Buf.hours 0) ∧
    lazy_row_at_rest.delay_count = 0 ∧
    lazy_row_at_rest.movement_delay = 2147483647 ∧
    (advance (2147483647 + 1) (slide_in_text lazy_row_at_rest (some (Buf.hours 1)))).state
      ≠ MOVING_OUT ∧
    ∀ n, (advance n (slide_in_text lazy_row_at_rest (some (Buf.hours 1)))).state
      = PREPARE_TO_MOVE := by
  have h : ∀ n, (advance n (slide_in_text lazy_row_at_rest (some (Buf.hours 1)))).state
      = PREPARE_TO_MOVE :=
    fun n => prepare_forever n _ (by decide) (by decide)
  refine ⟨by decide, by decide, by decide, by decide, ?_, h⟩
  rw [h]
  decide

/-- C7, amended: a row in `IN_FRAME` that displays a text, with counter 0 and delay `d`,
`0 <= d < INT_MAX`, is in `PREPARE_TO_MOVE` after `slide_in_text`; each of the next `d`
calls of `update_sliding_row` leaves it in `PREPARE_TO_MOVE` at `still_pos`, and call
`d + 1` puts it in `MOVING_OUT`, still at `still_pos`, with the counter back at 0.  Call
`d + 2` is the first to move it (one step to the left, when the exit position is further
away and `still_pos - 1` is an `int16_t`). -/
theorem prepare_holds_for_delay (row : SlidingRow) (old : Buf) (new_text : Option Buf)
    (_hs : row.state = IN_FRAME) (ht : row.label.text = some old)
    (hc : row.delay_count = 0) (hd : 0 ≤ row.movement_delay)
    (hd2 : row.movement_delay < 2147483647) :
    (slide_in_text row new_text).state = PREPARE_TO_MOVE ∧
    (∀ k : Nat, 1 ≤ k → (k : Int) ≤ row.movement_delay →
      (advance k (slide_in_text row new_text)).state = PREPARE_TO_MOVE ∧
      (advance k (slide_in_text row new_text)).label.frame.origin.x = row.still_pos) ∧
    (advance (row.movement_delay.toNat + 1) (slide_in_text row new_text)).state = MOVING_OUT ∧
    (advance (row.movement_delay.toNat + 1) (slide_in_text row new_text)).label.frame.origin.x
      = row.still_pos ∧
    (advance (row.movement_delay.toNat + 1) (slide_in_text row new_text)).delay_count = 0 ∧
    (row.left_pos < row.still_pos - 1 → -32768 < row.still_pos → row.still_pos ≤ 32767 →
      (advance (row.movement_delay.toNat + 2) (slide_in_text row new_text)).label.frame.origin.x
        = row.still_pos - 1) := by
  have hr : slide_in_text row new_text =
      { row with next_string := new_text, state := PREPARE_TO_MOVE } := by
    simp [slide_in_text, ht]
  have hS : (slide_in_text row new_text).state = PREPARE_TO_MOVE := by rw [hr]
  have hC : (slide_in_text row new_text).delay_count = 0 := by rw [hr]; exact hc
  have hM : (slide_in_text row new_text).movement_delay = row.movement_delay := by rw [hr]
  have hP : (slide_in_text row new_text).still_pos = row.still_pos := by rw [hr]
  have hL : (slide_in_text row new_text).left_pos = row.left_pos := by rw [hr]
  have hwait : ∀ k : Nat, 1 ≤ k → (k : Int) ≤ row.movement_delay →
      (advance k (slide_in_text row new_text)).state = PREPARE_TO_MOVE ∧
      (advance k (slide_in_text row new_text)).label.frame.origin.x = row.still_pos ∧
      (advance k (slide_in_text row new_text)).delay_count = k ∧
      (advance k (slide_in_text row new_text)).movement_delay = row.movement_delay ∧
      (advance k (slide_in_text row new_text)).still_pos = row.still_pos ∧
      (advance k (slide_in_text row new_text)).left_pos = row.left_pos := by
    intro k hk1 hk
    obtain ⟨j, rfl⟩ : ∃ j, k = j + 1 := ⟨k - 1, by omega⟩
    have := advance_prepare_wait j (slide_in_text row new_text) hS
      (by rw [hC]) (by rw [hM]; omega)
      (by rw [hC, hM]; push_cast at hk ⊢; omega)
    obtain ⟨h1, h2, h3, h4, h5, h6, -, -⟩ := this
    refine ⟨h1, ?_, ?_, ?_, ?_, ?_⟩
    · rw [h2, hP]
    · rw [h3, hC]; push_cast; ring
    · rw [h4, hM]
    · rw [h5, hP]
    · rw [h6, hL]
  -- the row after the `d` waiting calls
  have hlast : ∃ r : SlidingRow, r = advance row.movement_delay.toNat (slide_in_text row new_text) ∧
      r.state = PREPARE_TO_MOVE ∧ r.delay_count = row.movement_delay ∧
      r.movement_delay = row.movement_delay ∧ r.still_pos = row.still_pos ∧
      r.left_pos = row.left_pos := by
    refine ⟨_, rfl, ?_⟩
    by_cases h0 : row.movement_delay = 0
    · simp [h0, advance, hS, hC, hM, hP, hL]
    · obtain ⟨h1, -, h3, h4, h5, h6⟩ := hwait row.movement_delay.toNat (by omega) (by omega)
      exact ⟨h1, by rw [h3]; omega, h4, h5, h6⟩
  obtain ⟨r, hr0, hr1, hr2, hr3, hr4, hr5⟩ := hlast
  have hce := counted_eq r (by omega) (by omega)
  have hgo := update_prepare_go r hr1 (by omega)
  have hgo1 : advance (row.movement_delay.toNat + 1) (slide_in_text row new_text)
      = (update_sliding_row r).1 := by rw [advance_add_one, hr0]
  refine ⟨hS, fun k hk1 hk => ⟨(hwait k hk1 hk).1, (hwait k hk1 hk).2.1⟩, ?_, ?_, ?_, ?_⟩
  · rw [hgo1, hgo]
  · rw [hgo1, hgo]; simpa [layer_set_frame] using hr4
  · rw [hgo1, hgo]
  · intro hl hlo hhi
    rw [advance_add_one, hgo1]
    have hst : stepped (update_sliding_row r).1 = row.still_pos - 1 := by
      rw [hgo]
      simp only [stepped, layer_set_frame, hr4, sub_self, abs_zero]
      exact wrap16_eq _ (by omega) (by omega)
    have hout : (update_sliding_row r).1.state = MOVING_OUT := by rw [hgo]
    have hleft : (update_sliding_row r).1.left_pos = row.left_pos := by rw [hgo]; exact hr5
    rw [update_moving_out_go _ hout (by rw [hst, hleft]; exact hl)]
    simpa [layer_set_frame] using hst

theorem prepare_holds_for_delay_witness :
    (advance 6 (slide_in_text (advance 12 row_entering) (some (Buf.hours 1)))).state
      = PREPARE_TO_MOVE ∧
    (advance 7 (slide_in_text (advance 12 row_entering) (some (Buf.hours 1)))).state
      = MOVING_OUT :=
  ⟨((prepare_holds_for_delay (advance 12 row_entering) (Buf.hours 0) (some (Buf.hours 1))
      (by decide) (by decide) (by decide) (by decide) (by decide)).2.1 6
      (by decide) (by decide)).1,
   (prepare_holds_for_delay (advance 12 row_entering) (Buf.hours 0) (some (Buf.hours 1))
      (by decide) (by decide) (by decide) (by decide) (by decide)).2.2.1⟩

set_option maxRecDepth 100000 in
/-- C8 fails as stated: the hour row of a 32767 wide layer, built by `handle_init` and
at the start of its exit slide (position 0, `left_pos` -32767), steps in `int16_t`
arithmetic from -27559 to 28790 and is back at 0 after 58 calls, so it never leaves
`MOVING_OUT`, and not within `3 * |p - left_pos|` calls. -/
theorem slide_reaches_target_counterexample :
    wide_row_leaving.state = MOVING_OUT ∧
    wide_row_leaving.label.frame.origin.x = 0 ∧ wide_row_leaving.left_pos = -32767 ∧
    (advance 33 wide_row_leaving).label.frame.origin.x = -27559 ∧
    (advance 34 wide_row_leaving).label.frame.origin.x = 28790 ∧
    advance 58 wide_row_leaving = wide_row_leaving ∧
    ∀ n, (advance n wide_row_leaving).state = MOVING_OUT :=
  ⟨by decide, by decide, by decide, by decide, by decide, by decide, wide_row_never_leaves⟩

/-- C8, amended: for a row whose position and `still_pos` lie between -16384 and 16384
and whose `left_pos` is at least -16384 (no `int16_t` step wraps there): in `MOVING_IN`
away from `still_pos` it is at `still_pos` exactly, in `IN_FRAME`, after some `n` calls
with `1 <= n <= 3 * |p - still_pos|`; it is `MOVING_IN` before each of them and never
left of `still_pos` after one.  In `MOVING_OUT` away from `left_pos` it steps to
`left_pos` or beyond at some call `n <= 3 * |p - left_pos|`, is `MOVING_OUT` before each
of these calls and `MOVING_IN` after the last. -/
theorem slide_reaches_target (row : SlidingRow)
    (hx1 : -16384 ≤ row.label.frame.origin.x) (hx2 : row.label.frame.origin.x ≤ 16384)
    (hs1 : -16384 ≤ row.still_pos) (hs2 : row.still_pos ≤ 16384)
    (hl1 : -16384 ≤ row.left_pos) :
    (row.state = MOVING_IN → row.label.frame.origin.x ≠ row.still_pos →
      ∃ n : Nat, 1 ≤ n ∧ (n : Int) ≤ 3 * |row.label.frame.origin.x - row.still_pos| ∧
        (advance n row).label.frame.origin.x = row.still_pos ∧
        (advance n row).state = IN_FRAME ∧
        (∀ k, k < n → (advance k row).state = MOVING_IN) ∧
        (∀ k, 1 ≤ k → k ≤ n → row.still_pos ≤ (advance k row).label.frame.origin.x)) ∧
    (row.state = MOVING_OUT → row.label.frame.origin.x ≠ row.left_pos →
      ∃ n : Nat, 1 ≤ n ∧ (n : Int) ≤ 3 * |row.label.frame.origin.x - row.left_pos| ∧
        (∀ k, k < n → (advance k row).state = MOVING_OUT) ∧
        stepped (advance (n - 1) row) ≤ row.left_pos ∧
        (advance n row).state = MOVING_IN) := by
  obtain ⟨-, hsp, -⟩ := stepped_in_range row hx1 hx2 hs1 hs2
  constructor
  · intro hs hp
    rcases lt_or_gt_of_ne hp with hlt | hgt
    · -- left of the rest position: the first call clamps
      have hx : stepped row ≤ row.still_pos := by omega
      have habs : 1 ≤ |row.label.frame.origin.x - row.still_pos| := by
        rw [abs_of_neg (by omega)]; omega
      refine ⟨1, le_refl 1, by push_cast; omega, ?_, ?_, ?_, ?_⟩
      · simp [advance, update_moving_in_clamp row hs hx, layer_set_frame]
      · simp [advance, update_moving_in_clamp row hs hx]
      · intro k hk
        have : k = 0 := by omega
        subst this; exact hs
      · intro k hk1 hk
        have : k = 1 := by omega
        subst this
        simp [advance, update_moving_in_clamp row hs hx, layer_set_frame]
    · obtain ⟨d, hd⟩ : ∃ d : Nat, row.label.frame.origin.x - row.still_pos = (d : Int) + 1 :=
        ⟨(row.label.frame.origin.x - row.still_pos - 1).toNat, by omega⟩
      obtain ⟨n, hn1, hn2, hnx, hns, hnk, hnp⟩ :=
        moving_in_arrives d row hs hd (by omega) (by omega)
      have habs : |row.label.frame.origin.x - row.still_pos| = (d : Int) + 1 := by
        rw [hd]; exact abs_of_nonneg (by omega)
      exact ⟨n, hn1, by rw [habs]; omega, hnx, hns, hnk, fun k _ hk => hnp k hk⟩
  · intro hs hp
    rcases lt_or_gt_of_ne hp with hlt | hgt
    · have hx : stepped row ≤ row.left_pos := by omega
      have habs : 1 ≤ |row.label.frame.origin.x - row.left_pos| := by
        rw [abs_of_neg (by omega)]; omega
      refine ⟨1, le_refl 1, by push_cast; omega, ?_, hx, ?_⟩
      · intro k hk
        have : k = 0 := by omega
        subst this; exact hs
      · simp [advance, update_moving_out_wrap row hs hx]
    · obtain ⟨d, hd⟩ : ∃ d : Nat, row.label.frame.origin.x - row.left_pos = (d : Int) + 1 :=
        ⟨(row.label.frame.origin.x - row.left_pos - 1).toNat, by omega⟩
      obtain ⟨n, hn1, hnk, hnx, hns⟩ := moving_out_leaves d row hs hd hl1 hx2 hs1 hs2
      have habs : |row.label.frame.origin.x - row.left_pos| = (d : Int) + 1 := by
        rw [hd]; exact abs_of_nonneg (by omega)
      exact ⟨n + 1, by omega, by rw [habs]; push_cast; omega,
        fun k hk => hnk k (by omega), hnx, hns⟩

theorem slide_reaches_target_witness :
    (row_entering.state = MOVING_IN ∧ row_entering.label.frame.origin.x ≠ row_entering.still_pos ∧
      ∃ n : Nat, 1 ≤ n ∧
        (n : Int) ≤ 3 * |row_entering.label.frame.origin.x - row_entering.still_pos| ∧
        (advance n row_entering).label.frame.origin.x = row_entering.still_pos ∧
        (advance n row_entering).state = IN_FRAME ∧
        (∀ k, k < n → (advance k row_entering).state = MOVING_IN) ∧
        (∀ k, 1 ≤ k → k ≤ n →
          row_entering.still_pos ≤ (advance k row_entering).label.frame.origin.x)) ∧
    (row_leaving.state = MOVING_OUT ∧ row_leaving.label.frame.origin.x ≠ row_leaving.left_pos ∧
      ∃ n : Nat, 1 ≤ n ∧
        (n : Int) ≤ 3 * |row_leaving.label.frame.origin.x - row_leaving.left_pos| ∧
        (∀ k, k < n → (advance k row_leaving).state = MOVING_OUT) ∧
        stepped (advance (n - 1) row_leaving) ≤ row_leaving.left_pos ∧
        (advance n row_leaving).state = MOVING_IN) :=
  ⟨⟨by decide, by decide,
    (slide_reaches_target row_entering (by decide) (by decide) (by decide) (by decide)
      (by decide)).1 (by decide) (by decide)⟩,
   ⟨by decide, by decide,
    (slide_reaches_target row_leaving (by decide) (by decide) (by decide) (by decide)
      (by decide)).2 (by decide) (by decide)⟩⟩

/-- C9: for a row in `MOVING_OUT`, let the stepped position be the `int16_t` that
`frame.origin.x -= speed` stores, `wrap16 (x - (|x - still_pos| / 3 + 1))`.  When it is
at or beyond `left_pos`, `update_sliding_row` puts the row at `right_pos`, displays the
pending text, clears the pending text and sets `MOVING_IN`; when it is still right of
`left_pos` the row stays in `MOVING_OUT` at the stepped position, with the displayed and
the pending text as they were. -/
theorem moving_out_swap (row : SlidingRow) (h : row.state = MOVING_OUT) :
    (wrap16 (row.label.frame.origin.x - (|row.label.frame.origin.x - row.still_pos| / 3 + 1))
        ≤ row.left_pos →
      (update_sliding_row row).1.label.frame.origin.x = row.right_pos ∧
      (update_sliding_row row).1.label.text = row.next_string ∧
      (update_sliding_row row).1.next_string = none ∧
      (update_sliding_row row).1.state = MOVING_IN) ∧
    (row.left_pos
        < wrap16 (row.label.frame.origin.x
            - (|row.label.frame.origin.x - row.still_pos| / 3 + 1)) →
      (update_sliding_row row).1.state = MOVING_OUT ∧
      (update_sliding_row row).1.label.text = row.label.text ∧
      (update_sliding_row row).1.next_string = row.next_string ∧
      (update_sliding_row row).1.label.frame.origin.x
        = wrap16 (row.label.frame.origin.x
            - (|row.label.frame.origin.x - row.still_pos| / 3 + 1))) := by
  constructor
  · intro hx
    rw [update_moving_out_wrap row h hx]
    simp [layer_set_frame, text_layer_set_text]
  · intro hx
    rw [update_moving_out_go row h hx]
    simp [layer_set_frame, h, stepped]

set_option maxRecDepth 100000 in
theorem moving_out_swap_witness :
    (advance 14 row_leaving).state = MOVING_OUT ∧
    (update_sliding_row (advance 14 row_leaving)).1.label.text = some (Buf.hours 1) ∧
    (update_sliding_row (advance 14 row_leaving)).1.next_string = none ∧
    (update_sliding_row row_leaving).1.label.text = some (Buf.hours 0) ∧
    (advance 33 wide_row_leaving).label.frame.origin.x = -27559 ∧
    (update_sliding_row (advance 33 wide_row_leaving)).1.state = MOVING_OUT ∧
    (update_sliding_row (advance 33 wide_row_leaving)).1.label.frame.origin.x = 28790 :=
  ⟨by decide,
   ((moving_out_swap (advance 14 row_leaving) (by decide)).1 (by decide)).2.1,
   ((moving_out_swap (advance 14 row_leaving) (by decide)).1 (by decide)).2.2.1,
   ((moving_out_swap row_leaving (by decide)).2 (by decide)).2.1,
   by decide,
   ((moving_out_swap (advance 33 wide_row_leaving) (by decide)).2 (by decide)).1,
   by decide⟩

/-- C10 fails as stated: the hour row at the start of its exit slide is at 0 with rest
position 0 and exit position -144; the claimed step `|x - left_pos| / 3 + 1` would take
it to -49, and `update_sliding_row` takes it to -1. -/
theorem moving_out_speed_counterexample :
    row_leaving.state = MOVING_OUT ∧
    row_leaving.label.frame.origin.x = 0 ∧ row_leaving.left_pos = -144 ∧
    row_leaving.label.frame.origin.x
      - (|row_leaving.label.frame.origin.x - row_leaving.left_pos| / 3 + 1) = -49 ∧
    (update_sliding_row row_leaving).1.label.frame.origin.x = -1 := by
  decide

/-- C10, amended: for a row in `MOVING_OUT` at `x`, one call of `update_sliding_row`
subtracts `|x - still_pos| / 3 + 1` from the position, the very expression of `MOVING_IN`
(the distance from the rest position, at least 1), in `int16_t` arithmetic: the stepped
position is `wrap16` of the difference, which is the difference itself when that is at
least -32768 and `x` is an `int16_t`; the row is then put at `right_pos` if the stepped
position is at or beyond `left_pos`. -/
theorem moving_out_speed (row : SlidingRow) (h : row.state = MOVING_OUT) :
    (update_sliding_row row).1.label.frame.origin.x =
      (if wrap16 (row.label.frame.origin.x
            - (|row.label.frame.origin.x - row.still_pos| / 3 + 1)) ≤ row.left_pos
       then row.right_pos
       else wrap16 (row.label.frame.origin.x
            - (|row.label.frame.origin.x - row.still_pos| / 3 + 1))) ∧
    (-32768 ≤ row.label.frame.origin.x - (|row.label.frame.origin.x - row.still_pos| / 3 + 1) →
      row.label.frame.origin.x ≤ 32767 →
      wrap16 (row.label.frame.origin.x - (|row.label.frame.origin.x - row.still_pos| / 3 + 1))
        = row.label.frame.origin.x
            - (|row.label.frame.origin.x - row.still_pos| / 3 + 1)) ∧
    1 ≤ |row.label.frame.origin.x - row.still_pos| / 3 + 1 ∧
    (update_sliding_row row).2 = true := by
  have hpos := abs_nonneg (row.label.frame.origin.x - row.still_pos)
  refine ⟨?_, fun h1 h2 => wrap16_eq _ h1 (by omega), by omega, ?_⟩
  · split
    · next hx => rw [update_moving_out_wrap row h hx]; simp [layer_set_frame]
    · next hx =>
      rw [update_moving_out_go row h (by unfold stepped; omega)]
      simp [layer_set_frame, stepped]
  · simp only [update_sliding_row, h]
    split <;> rfl

theorem moving_out_speed_witness :
    row_leaving.state = MOVING_OUT ∧
    (update_sliding_row row_leaving).1.label.frame.origin.x =
      (if wrap16 (row_leaving.label.frame.origin.x
            - (|row_leaving.label.frame.origin.x - row_leaving.still_pos| / 3 + 1))
          ≤ row_leaving.left_pos
       then row_leaving.right_pos
       else wrap16 (row_leaving.label.frame.origin.x
            - (|row_leaving.label.frame.origin.x - row_leaving.still_pos| / 3 + 1))) ∧
    (update_sliding_row row_leaving).1.label.frame.origin.x = -1 :=
  ⟨by decide, (moving_out_speed row_leaving (by decide)).1, by decide⟩

/-! The frame driver. -/

theorem update_false (row : SlidingRow) (h : (update_sliding_row row).2 = false) :
    row.state = IN_FRAME ∧ (update_sliding_row row).1 = row := by
  cases hs : row.state <;> simp [update_sliding_row, hs] at h ⊢
  all_goals (split at h <;> simp at h)

theorem toggle_le (n : Nat) : toggle n ≤ 1 := by
  unfold toggle; split <;> omega

theorem toggle_toggle (n : Nat) (h : n ≤ 1) : toggle (toggle n) = n := by
  unfold toggle; split <;> simp <;> omega

theorem toggle_ne (n : Nat) : toggle n ≠ n := by
  unfold toggle; split <;> omega

theorem RowInv_update (f : Nat → Buf) (n : Nat) (row : SlidingRow) (h : RowInv f n row) :
    RowInv f n (update_sliding_row row).1 := by
  obtain ⟨hp, ht⟩ := h
  cases hs : row.state
  · by_cases hx : stepped row ≤ row.still_pos
    · rw [update_moving_in_clamp row hs hx]; exact ⟨hp, ht⟩
    · rw [update_moving_in_go row hs (by omega)]; exact ⟨hp, ht⟩
  · rw [update_in_frame row hs]; exact ⟨hp, ht⟩
  · by_cases hc : counted row ≤ row.movement_delay
    · rw [update_prepare_wait row hs hc]; exact ⟨hp, ht⟩
    · rw [update_prepare_go row hs (by omega)]; exact ⟨hp, ht⟩
  · by_cases hx : stepped row ≤ row.left_pos
    · rw [update_moving_out_wrap row hs hx]
      refine ⟨Or.inl rfl, ?_⟩
      rcases hp with hp | hp
      · exact Or.inl hp
      · exact Or.inr (Or.inl hp)
    · rw [update_moving_out_go row hs (by omega)]; exact ⟨hp, ht⟩

theorem RowInv_slide (f : Nat → Buf) (n : Nat) (row : SlidingRow) (hn : n ≤ 1)
    (h : RowInv f n row) (hp : row.next_string = none) :
    RowInv f (toggle n) (slide_in_text row (some (f n))) := by
  obtain ⟨-, ht⟩ := h
  unfold RowInv
  rw [toggle_toggle n hn]
  rcases ht with ht | ht | ⟨-, ht⟩
  · simp [slide_in_text, ht, hp, text_layer_set_text, layer_set_frame]
  · simp [slide_in_text, ht]
  · rw [hp] at ht; cases ht

theorem RowInv_swap (f : Nat → Buf) (n : Nat) (row : SlidingRow) (hn : n ≤ 1)
    (hp : row.next_string = none) :
    RowInv f (toggle n) { row with label := text_layer_set_text row.label (some (f n)) } := by
  rw [RowInv, toggle_toggle n hn]
  simp [hp, text_layer_set_text]

theorem holds_other (f : Nat → Buf) (n : Nat) (row : SlidingRow) (b : Buf)
    (h : RowInv f n row) (hb : ∀ i, f i ≠ b) : holds row b = false := by
  obtain ⟨hp, ht⟩ := h
  have h1 : row.label.text ≠ some b := by
    rcases ht with ht | ht | ⟨ht, -⟩ <;> rw [ht] <;> simp [hb]
  have h2 : row.next_string ≠ some b := by
    rcases hp with hp | hp <;> rw [hp] <;> simp [hb]
  simp [holds, h1, h2]

theorem holds_next (f : Nat → Buf) (n : Nat) (row : SlidingRow)
    (hf : ∀ i j, f i = f j → i = j) (h : RowInv f n row) (hp : row.next_string = none) :
    holds row (f n) = false := by
  obtain ⟨-, ht⟩ := h
  have hne : f (toggle n) ≠ f n := fun e => toggle_ne n (hf _ _ e)
  have h1 : row.label.text ≠ some (f n) := by
    rcases ht with ht | ht | ⟨-, ht⟩
    · rw [ht]; simp
    · rw [ht]; simpa using hne
    · rw [hp] at ht; cases ht
  simp [holds, h1, hp]

theorem minute_part_rows0 (data : SlidingTextData) (t : Tm) :
    (minute_part data t).1.rows0 = data.rows0 ∧
    (minute_part data t).1.last_hour = data.last_hour ∧
    (minute_part data t).1.render_state.next_hours = data.render_state.next_hours := by
  unfold minute_part
  split
  · split <;> simp
  · simp

theorem Inv_minute_part (data : SlidingTextData) (t : Tm) (h : Inv data)
    (hs : data.last_minute ≠ t.tm_min →
      data.rows1.next_string = none ∧ data.rows2.next_string = none) :
    Inv (minute_part data t).1 := by
  obtain ⟨hnh, hnm, h0, h1, h2⟩ := h
  unfold minute_part
  split
  · next hm =>
    obtain ⟨hp1, hp2⟩ := hs hm
    have k2 := RowInv_slide Buf.second_minutes _ _ hnm h2 hp2
    split
    · exact ⟨hnh, toggle_le _, h0, RowInv_slide Buf.first_minutes _ _ hnm h1 hp1, k2⟩
    · exact ⟨hnh, toggle_le _, h0, RowInv_swap Buf.first_minutes _ _ hnm hp1, k2⟩
  · exact ⟨hnh, hnm, h0, h1, h2⟩

theorem Inv_hour_part (data : SlidingTextData) (t : Tm) (h : Inv data)
    (hs : data.last_hour ≠ t.tm_hour → data.rows0.next_string = none) :
    Inv (hour_part data t).1 := by
  obtain ⟨hnh, hnm, h0, h1, h2⟩ := h
  unfold hour_part
  split
  · next hh =>
    exact ⟨toggle_le _, hnm, RowInv_slide Buf.hours _ _ hnh h0 (hs hh), h1, h2⟩
  · exact ⟨hnh, hnm, h0, h1, h2⟩

theorem animation_update_data (data : SlidingTextData) (t : Tm) :
    (animation_update data t).data =
      { time_part data t with
        rows0 := (update_sliding_row (time_part data t).rows0).1
        rows1 := (update_sliding_row (time_part data t).rows1).1
        rows2 := (update_sliding_row (time_part data t).rows2).1 } := rfl

theorem animation_update_writes (data : SlidingTextData) (t : Tm) :
    (animation_update data t).writes
      = (minute_part data t).2 ++ (hour_part (minute_part data t).1 t).2 := rfl

theorem Inv_time_part (data : SlidingTextData) (t : Tm) (h : Inv data) (hs : Settled data t) :
    Inv (time_part data t) := by
  have hm := Inv_minute_part data t h hs.1
  obtain ⟨e0, e1, -⟩ := minute_part_rows0 data t
  exact Inv_hour_part _ t hm (by rw [e0, e1]; exact hs.2)

/-- A settled frame keeps the slot discipline. -/
theorem Inv_animation_update (data : SlidingTextData) (t : Tm) (h : Inv data)
    (hs : Settled data t) : Inv (animation_update data t).data := by
  obtain ⟨hnh, hnm, h0, h1, h2⟩ := Inv_time_part data t h hs
  rw [animation_update_data]
  exact ⟨hnh, hnm, RowInv_update _ _ _ h0, RowInv_update _ _ _ h1, RowInv_update _ _ _ h2⟩

theorem minute_writes_free (data : SlidingTextData) (t : Tm) (h : Inv data)
    (hs : data.last_minute ≠ t.tm_min →
      data.rows1.next_string = none ∧ data.rows2.next_string = none) :
    ∀ w ∈ (minute_part data t).2, w.in_use = false := by
  obtain ⟨hnh, hnm, h0, h1, h2⟩ := h
  intro w hw
  unfold minute_part at hw
  split at hw
  · next hm =>
    obtain ⟨hp1, hp2⟩ := hs hm
    simp only [List.mem_cons, List.mem_singleton, List.not_mem_nil, or_false] at hw
    rcases hw with rfl | rfl
    · have a0 := holds_other _ _ _ (Buf.first_minutes data.render_state.next_minutes) h0
        (by intro i; simp)
      have a1 := holds_next Buf.first_minutes _ _ (by intro i j e; simpa using e) h1 hp1
      have a2 := holds_other _ _ _ (Buf.first_minutes data.render_state.next_minutes) h2
        (by intro i; simp)
      simp [Write.in_use, a0, a1, a2]
    · have a0 := holds_other _ _ _ (Buf.second_minutes data.render_state.next_minutes) h0
        (by intro i; simp)
      have a1 := holds_other _ _ _ (Buf.second_minutes data.render_state.next_minutes) h1
        (by intro i; simp)
      have a2 := holds_next Buf.second_minutes _ _ (by intro i j e; simpa using e) h2 hp2
      simp [Write.in_use, a0, a1, a2]
  · simp at hw

theorem hour_writes_free (data : SlidingTextData) (t : Tm) (h : Inv data)
    (hs : data.last_hour ≠ t.tm_hour → data.rows0.next_string = none) :
    ∀ w ∈ (hour_part data t).2, w.in_use = false := by
  obtain ⟨hnh, hnm, h0, h1, h2⟩ := h
  intro w hw
  unfold hour_part at hw
  split at hw
  · next hh =>
    simp only [List.mem_singleton] at hw
    subst hw
    have a0 := holds_next Buf.hours _ _ (by intro i j e; simpa using e) h0 (hs hh)
    have a1 := holds_other _ _ _ (Buf.hours data.render_state.next_hours) h1
      (by intro i; simp)
    have a2 := holds_other _ _ _ (Buf.hours data.render_state.next_hours) h2
      (by intro i; simp)
    simp [Write.in_use, a0, a1, a2]
  · simp at hw

/-- No write of a settled frame lands in a slot that a row displays or has pending. -/
theorem frame_writes_free (data : SlidingTextData) (t : Tm) (h : Inv data)
    (hs : Settled data t) : ∀ w ∈ (animation_update data t).writes, w.in_use = false := by
  intro w hw
  rw [animation_update_writes, List.mem_append] at hw
  rcases hw with hw | hw
  · exact minute_writes_free data t h hs.1 w hw
  · obtain ⟨e0, e1, -⟩ := minute_part_rows0 data t
    exact hour_writes_free _ t (Inv_minute_part data t h hs.1)
      (by rw [e0, e1]; exact hs.2) w hw

theorem Inv_handle_init (mem : SlidingTextData) (width : Int) (round : Bool) :
    Inv (handle_init mem width round) := by
  simp [Inv, RowInv, handle_init, init_sliding_row, text_layer_create]

theorem run_writes_free (ts : List Tm) : ∀ data : SlidingTextData, Inv data → Paced data ts →
    ∀ w ∈ run_writes data ts, w.in_use = false := by
  induction ts with
  | nil => intro data _ _ w hw; simp [run_writes] at hw
  | cons t ts ih =>
    intro data h hp w hw
    obtain ⟨hs, hp⟩ := hp
    simp only [run_writes, List.mem_append] at hw
    rcases hw with hw | hw
    · exact frame_writes_free data t h hs w hw
    · exact ih _ (Inv_animation_update data t h hs) hp w hw

theorem Inv_run (ts : List Tm) : ∀ data : SlidingTextData, Inv data → Paced data ts →
    Inv (run data ts) := by
  induction ts with
  | nil => intro data h _; exact h
  | cons t ts ih =>
    intro data h hp
    exact ih _ (Inv_animation_update data t h hp.1) hp.2

theorem RowInv_next (f : Nat → Buf) (n : Nat) (row : SlidingRow)
    (hf : ∀ i j, f i = f j → i = j) (h : RowInv f n row) :
    row.next_string ≠ some (f n) ∧
    (row.label.text = some (f n) → row.next_string = some (f (toggle n))) := by
  obtain ⟨hp, ht⟩ := h
  have hne : f (toggle n) ≠ f n := fun e => toggle_ne n (hf _ _ e)
  constructor
  · rcases hp with hp | hp
    · rw [hp]; simp
    · rw [hp]; simpa using hne
  · intro hx
    rcases ht with ht | ht | ⟨-, ht⟩
    · rw [ht] at hx; cases hx
    · rw [ht] at hx; exact absurd (Option.some.inj hx) hne
    · exact ht

/-- C1 fails as stated: with the readings 0:00, 0:01, 0:02 in three successive frames,
all in range, the third frame formats the minute into `first_minutes[0]` and
`second_minutes[0]` while `rows[1]` and `rows[2]` still display these slots. -/
theorem write_in_use_counterexample :
    (run (handle_init mem0 144 false) [⟨0, 0⟩, ⟨0, 1⟩]).rows1.label.text
      = some (Buf.first_minutes 0) ∧
    (run (handle_init mem0 144 false) [⟨0, 0⟩, ⟨0, 1⟩]).rows2.label.text
      = some (Buf.second_minutes 0) ∧
    (animation_update (run (handle_init mem0 144 false) [⟨0, 0⟩, ⟨0, 1⟩]) ⟨0, 2⟩).writes.map
      (fun w => (w.slot, w.in_use))
      = [(Buf.first_minutes 0, true), (Buf.second_minutes 0, true)] ∧
    ∃ w ∈ run_writes (handle_init mem0 144 false) [⟨0, 0⟩, ⟨0, 1⟩, ⟨0, 2⟩], w.in_use = true := by
  decide

/-- C1, amended: in every run of the frame driver from the initial state in which the
minute changes only in frames that start with no pending text on `rows[1]` and `rows[2]`,
and the hour only in frames that start with none on `rows[0]`, no formatter call writes
into a slot that is, when it runs, the displayed or the pending text of a row. -/
theorem paced_writes_never_in_use (mem : SlidingTextData) (width : Int) (round : Bool)
    (ts : List Tm) (hp : Paced (handle_init mem width round) ts) :
    ∀ w ∈ run_writes (handle_init mem width round) ts, w.in_use = false :=
  run_writes_free ts _ (Inv_handle_init mem width round) hp

set_option maxRecDepth 100000 in
theorem paced_writes_never_in_use_witness :
    Paced (handle_init mem0 144 false) calm_readings ∧
    (run_writes (handle_init mem0 144 false) calm_readings).length = 7 ∧
    ∀ w ∈ run_writes (handle_init mem0 144 false) calm_readings, w.in_use = false :=
  ⟨by decide, by decide, paced_writes_never_in_use mem0 144 false calm_readings (by decide)⟩

/-- C2 fails as stated: one frame after the minute went from 0 to 1 the next index of the
minute fields is 0 and `rows[1]` still displays `first_minutes[0]`; and after the readings
0:00, 0:30, 0:31 in successive frames the next index is 1 and the pending text of
`rows[1]` is `first_minutes[1]`. -/
theorem next_slot_referenced_counterexample :
    (run (handle_init mem0 144 false) [⟨0, 0⟩, ⟨0, 1⟩]).render_state.next_minutes = 0 ∧
    (run (handle_init mem0 144 false) [⟨0, 0⟩, ⟨0, 1⟩]).rows1.label.text
      = some (Buf.first_minutes 0) ∧
    (run (handle_init mem0 144 false) [⟨0, 0⟩, ⟨0, 30⟩, ⟨0, 31⟩]).render_state.next_minutes = 1 ∧
    (run (handle_init mem0 144 false) [⟨0, 0⟩, ⟨0, 30⟩, ⟨0, 31⟩]).rows1.next_string
      = some (Buf.first_minutes 1) := by
  decide

/-- C2, amended: in every state reached from the initial state by frames in which the
minute changes only when `rows[1]` and `rows[2]` have no pending text, and the hour only
when `rows[0]` has none, both next indexes are 0 or 1 and, for each field, the slot at the
next index is not the pending text of its row, and it is the displayed text of its row
only while the row has a pending text (which is then the other slot). -/
theorem paced_next_slot_free (mem : SlidingTextData) (width : Int) (round : Bool)
    (ts : List Tm) (hp : Paced (handle_init mem width round) ts) :
    (run (handle_init mem width round) ts).render_state.next_hours ≤ 1 ∧
    (run (handle_init mem width round) ts).render_state.next_minutes ≤ 1 ∧
    ((run (handle_init mem width round) ts).rows0.next_string ≠
        some (Buf.hours (run (handle_init mem width round) ts).render_state.next_hours) ∧
     ((run (handle_init mem width round) ts).rows0.label.text =
        some (Buf.hours (run (handle_init mem width round) ts).render_state.next_hours) →
      (run (handle_init mem width round) ts).rows0.next_string =
        some (Buf.hours (toggle (run (handle_init mem width round) ts).render_state.next_hours)))) ∧
    ((run (handle_init mem width round) ts).rows1.next_string ≠
        some (Buf.first_minutes
          (run (handle_init mem width round) ts).render_state.next_minutes) ∧
     ((run (handle_init mem width round) ts).rows1.label.text =
        some (Buf.first_minutes
          (run (handle_init mem width round) ts).render_state.next_minutes) →
      (run (handle_init mem width round) ts).rows1.next_string =
        some (Buf.first_minutes
          (toggle (run (handle_init mem width round) ts).render_state.next_minutes)))) ∧
    ((run (handle_init mem width round) ts).rows2.next_string ≠
        some (Buf.second_minutes
          (run (handle_init mem width round) ts).render_state.next_minutes) ∧
     ((run (handle_init mem width round) ts).rows2.label.text =
        some (Buf.second_minutes
          (run (handle_init mem width round) ts).render_state.next_minutes) →
      (run (handle_init mem width round) ts).rows2.next_string =
        some (Buf.second_minutes
          (toggle (run (handle_init mem width round) ts).render_state.next_minutes)))) := by
  obtain ⟨hnh, hnm, h0, h1, h2⟩ := Inv_run ts _ (Inv_handle_init mem width round) hp
  exact ⟨hnh, hnm,
    RowInv_next Buf.hours _ _ (by intro i j e; simpa using e) h0,
    RowInv_next Buf.first_minutes _ _ (by intro i j e; simpa using e) h1,
    RowInv_next Buf.second_minutes _ _ (by intro i j e; simpa using e) h2⟩

set_option maxRecDepth 100000 in
theorem paced_next_slot_free_witness :
    Paced (handle_init mem0 144 false) (calm_readings.take 60) ∧
    (run (handle_init mem0 144 false) (calm_readings.take 60)).rows2.next_string ≠
      some (Buf.second_minutes
        (run (handle_init mem0 144 false) (calm_readings.take 60)).render_state.next_minutes) :=
  ⟨by decide, (paced_next_slot_free mem0 144 false (calm_readings.take 60) (by decide)).2.2.2.2.1⟩

/-- C3: whatever the driver state and the clock reading, a frame of `animation_update`
that calls `animation_unschedule` ends with all three rows in `IN_FRAME`. -/
theorem unschedule_only_when_idle (data : SlidingTextData) (t : Tm)
    (h : (animation_update data t).unscheduled = true) :
    (animation_update data t).data.rows0.state = IN_FRAME ∧
    (animation_update data t).data.rows1.state = IN_FRAME ∧
    (animation_update data t).data.rows2.state = IN_FRAME := by
  simp only [animation_update, Bool.not_eq_true', Bool.or_eq_false_iff] at h
  obtain ⟨h2, h1, h0, -⟩ := h
  obtain ⟨s0, e0⟩ := update_false _ h0
  obtain ⟨s1, e1⟩ := update_false _ h1
  obtain ⟨s2, e2⟩ := update_false _ h2
  rw [animation_update_data]
  simp only [time_part, e0, e1, e2]
  exact ⟨s0, s1, s2⟩

theorem unschedule_only_when_idle_witness :
    (animation_update (run (handle_init mem0 144 false) (calm_readings.take 11)) ⟨9, 5⟩).unscheduled
      = true ∧
    (animation_update (run (handle_init mem0 144 false) (calm_readings.take 11)) ⟨9, 5⟩).data.rows0.state
      = IN_FRAME :=
  ⟨by decide,
   (unschedule_only_when_idle (run (handle_init mem0 144 false) (calm_readings.take 11)) ⟨9, 5⟩
    (by decide)).1⟩

/-- C4: in a frame whose minute `m` differs from `last_minute`, `rows[1]` is given to
`slide_in_text` with the freshly written `first_minutes` slot unless the hour equals
`last_hour`, `m > 20` and `m / 10 == last_minute / 10` (C division); when the three hold
the slot becomes its displayed text and nothing else of the row changes in the time
handling of the frame.  With the hour unchanged, 10 to 11 and 21 to 31 animate and 31 to
32 swaps silently. -/
theorem tens_row_policy (data : SlidingTextData) (t : Tm) (h : data.last_minute ≠ t.tm_min) :
    ((minute_part data t).2.map Write.slot =
      [Buf.first_minutes data.render_state.next_minutes,
       Buf.second_minutes data.render_state.next_minutes]) ∧
    (¬ (t.tm_hour = data.last_hour ∧ 20 < t.tm_min ∧
        Int.tdiv t.tm_min 10 = Int.tdiv data.last_minute 10) →
      (time_part data t).rows1 =
        slide_in_text data.rows1 (some (Buf.first_minutes data.render_state.next_minutes))) ∧
    (t.tm_hour = data.last_hour ∧ 20 < t.tm_min ∧
        Int.tdiv t.tm_min 10 = Int.tdiv data.last_minute 10 →
      (time_part data t).rows1.label.text
        = some (Buf.first_minutes data.render_state.next_minutes) ∧
      (time_part data t).rows1.state = data.rows1.state ∧
      (time_part data t).rows1.next_string = data.rows1.next_string ∧
      (time_part data t).rows1.label.frame = data.rows1.label.frame ∧
      (time_part data t).rows1 =
        { data.rows1 with
          label := text_layer_set_text data.rows1.label
            (some (Buf.first_minutes data.render_state.next_minutes)) }) ∧
    (t.tm_hour = data.last_hour → data.last_minute = 10 → t.tm_min = 11 →
      (time_part data t).rows1 =
        slide_in_text data.rows1 (some (Buf.first_minutes data.render_state.next_minutes))) ∧
    (t.tm_hour = data.last_hour → data.last_minute = 21 → t.tm_min = 31 →
      (time_part data t).rows1 =
        slide_in_text data.rows1 (some (Buf.first_minutes data.render_state.next_minutes))) ∧
    (t.tm_hour = data.last_hour → data.last_minute = 31 → t.tm_min = 32 →
      (time_part data t).rows1 =
        { data.rows1 with
          label := text_layer_set_text data.rows1.label
            (some (Buf.first_minutes data.render_state.next_minutes)) }) := by
  have hrow : (time_part data t).rows1 = (minute_part data t).1.rows1 := by
    unfold time_part hour_part
    split <;> rfl
  have hanim : ¬ (t.tm_hour = data.last_hour ∧ 20 < t.tm_min ∧
        Int.tdiv t.tm_min 10 = Int.tdiv data.last_minute 10) →
      (time_part data t).rows1 =
        slide_in_text data.rows1 (some (Buf.first_minutes data.render_state.next_minutes)) := by
    intro hn
    have hc : data.last_hour ≠ t.tm_hour ∨ t.tm_min ≤ 20
        ∨ Int.tdiv t.tm_min 10 ≠ Int.tdiv data.last_minute 10 := by
      by_contra hc
      push_neg at hc
      exact hn ⟨hc.1.symm, hc.2.1, hc.2.2⟩
    rw [hrow]
    simp only [minute_part, h, hc, ne_eq, not_false_eq_true, if_true]
  have hswap : t.tm_hour = data.last_hour ∧ 20 < t.tm_min ∧
        Int.tdiv t.tm_min 10 = Int.tdiv data.last_minute 10 →
      (time_part data t).rows1 =
        { data.rows1 with
          label := text_layer_set_text data.rows1.label
            (some (Buf.first_minutes data.render_state.next_minutes)) } := by
    rintro ⟨a, b, c⟩
    have hc : ¬ (data.last_hour ≠ t.tm_hour ∨ t.tm_min ≤ 20
        ∨ Int.tdiv t.tm_min 10 ≠ Int.tdiv data.last_minute 10) := by
      push_neg
      exact ⟨a.symm, b, c⟩
    rw [hrow]
    simp only [minute_part, h, hc, ne_eq, not_false_eq_true, if_true, if_false]
  refine ⟨?_, hanim, ?_, ?_, ?_, ?_⟩
  · simp [minute_part, h]
  · intro hc
    rw [hswap hc]
    simp [text_layer_set_text]
  · intro _ hl hm
    apply hanim
    rintro ⟨-, b, -⟩
    omega
  · intro _ hl hm
    apply hanim
    rintro ⟨-, -, c⟩
    rw [hl, hm] at c
    revert c
    decide
  · intro a hl hm
    apply hswap
    refine ⟨a, by omega, ?_⟩
    rw [hl, hm]
    decide

theorem tens_row_policy_witness :
    (run (handle_init mem0 144 false) (List.replicate 12 ⟨9, 31⟩)).last_minute ≠ 32 ∧
    (time_part (run (handle_init mem0 144 false) (List.replicate 12 ⟨9, 31⟩)) ⟨9, 32⟩).rows1.state
      = IN_FRAME ∧
    (time_part (run (handle_init mem0 144 false) (List.replicate 12 ⟨9, 31⟩)) ⟨9, 32⟩).rows1.label.text
      = some (Buf.first_minutes 1) :=
  ⟨by decide, by decide,
   ((tens_row_policy (run (handle_init mem0 144 false) (List.replicate 12 ⟨9, 31⟩)) ⟨9, 32⟩
      (by decide)).2.2.1 (by decide)).1⟩

/-! Return value of an advance, idle rows, deactivation. -/

theorem update_true_iff (row : SlidingRow) :
    (update_sliding_row row).2 = true ↔ row.state ≠ IN_FRAME := by
  cases hs : row.state <;> simp [update_sliding_row, hs]
  all_goals (split <;> rfl)

theorem slide_in_text_state (row : SlidingRow) (new_text : Option Buf) :
    (slide_in_text row new_text).state ≠ IN_FRAME := by
  unfold slide_in_text
  split <;> simp

/-- C11 fails as stated: the hour row, at rest at `still_pos` and given a second text, is
in `PREPARE_TO_MOVE`; `update_sliding_row` returns true and the position after the call
is the position before it. -/
theorem update_true_without_move_counterexample :
    (slide_in_text (advance 12 row_entering) (some (Buf.hours 1))).state = PREPARE_TO_MOVE ∧
    (update_sliding_row (slide_in_text (advance 12 row_entering) (some (Buf.hours 1)))).2 = true ∧
    (update_sliding_row
        (slide_in_text (advance 12 row_entering) (some (Buf.hours 1)))).1.label.frame.origin.x
      = (slide_in_text (advance 12 row_entering) (some (Buf.hours 1))).label.frame.origin.x := by
  decide

/-- C11, amended: for every row in every one of the four states, `update_sliding_row`
returns true if and only if the row is not in `IN_FRAME` before the call; in particular
it returns true whenever the position after the call differs from the position before. -/
theorem update_returns_busy (row : SlidingRow) :
    ((update_sliding_row row).2 = true ↔ row.state ≠ IN_FRAME) ∧
    ((update_sliding_row row).1.label.frame.origin.x ≠ row.label.frame.origin.x →
      (update_sliding_row row).2 = true) := by
  refine ⟨update_true_iff row, fun hx => ?_⟩
  rw [update_true_iff]
  intro hs
  rw [update_in_frame row hs] at hx
  exact hx rfl

/-- C12: on a row in `IN_FRAME`, `update_sliding_row` returns false and the row after the
call is the row before it: state, pending text, counter, displayed text and position are
the same. -/
theorem in_frame_is_idle (row : SlidingRow) (h : row.state = IN_FRAME) :
    (update_sliding_row row).2 = false ∧
    (update_sliding_row row).1 = row ∧
    (update_sliding_row row).1.state = row.state ∧
    (update_sliding_row row).1.next_string = row.next_string ∧
    (update_sliding_row row).1.delay_count = row.delay_count ∧
    (update_sliding_row row).1.label.text = row.label.text ∧
    (update_sliding_row row).1.label.frame.origin.x = row.label.frame.origin.x := by
  rw [update_in_frame row h]
  simp

theorem in_frame_is_idle_witness :
    (advance 12 row_entering).state = IN_FRAME ∧
    (update_sliding_row (advance 12 row_entering)).2 = false ∧
    (update_sliding_row (advance 12 row_entering)).1 = advance 12 row_entering :=
  ⟨by decide, (in_frame_is_idle (advance 12 row_entering) (by decide)).1,
   (in_frame_is_idle (advance 12 row_entering) (by decide)).2.1⟩

theorem time_part_rows2 (data : SlidingTextData) (t : Tm) (h : data.last_minute ≠ t.tm_min) :
    (time_part data t).rows2 =
      slide_in_text data.rows2 (some (Buf.second_minutes data.render_state.next_minutes)) := by
  have hrow : (time_part data t).rows2 = (minute_part data t).1.rows2 := by
    unfold time_part hour_part
    split <;> rfl
  rw [hrow]
  unfold minute_part
  rw [if_pos h]
  dsimp only
  split <;> rfl

theorem time_part_rows0 (data : SlidingTextData) (t : Tm) (h : data.last_hour ≠ t.tm_hour) :
    (time_part data t).rows0 =
      slide_in_text data.rows0 (some (Buf.hours data.render_state.next_hours)) := by
  obtain ⟨e0, e1, e2⟩ := minute_part_rows0 data t
  unfold time_part hour_part
  rw [if_pos (by rw [e1]; exact h)]
  simp only [e0, e2]

/-- C15: whatever the driver state and the clock reading, a frame of `animation_update`
calls `animation_unschedule` if and only if none of its three `update_sliding_row` calls
returned true; a frame in which the minute or the hour changed does not call it, the row
that was given the new text reporting a change in that frame. -/
theorem unschedule_iff_no_row_changed (data : SlidingTextData) (t : Tm) :
    ((animation_update data t).unscheduled = true ↔
      ((update_sliding_row (time_part data t).rows0).2 = false ∧
       (update_sliding_row (time_part data t).rows1).2 = false ∧
       (update_sliding_row (time_part data t).rows2).2 = false)) ∧
    (data.last_minute ≠ t.tm_min →
      (update_sliding_row (time_part data t).rows2).2 = true ∧
      (animation_update data t).unscheduled = false) ∧
    (data.last_hour ≠ t.tm_hour →
      (update_sliding_row (time_part data t).rows0).2 = true ∧
      (animation_update data t).unscheduled = false) := by
  have hun : (animation_update data t).unscheduled =
      !((update_sliding_row (time_part data t).rows2).2 ||
        ((update_sliding_row (time_part data t).rows1).2 ||
          ((update_sliding_row (time_part data t).rows0).2 ||
            (if data.last_minute ≠ t.tm_min then true else false)))) := rfl
  have hmin : data.last_minute ≠ t.tm_min →
      (update_sliding_row (time_part data t).rows2).2 = true := by
    intro h
    rw [update_true_iff, time_part_rows2 data t h]
    exact slide_in_text_state _ _
  have hhour : data.last_hour ≠ t.tm_hour →
      (update_sliding_row (time_part data t).rows0).2 = true := by
    intro h
    rw [update_true_iff, time_part_rows0 data t h]
    exact slide_in_text_state _ _
  refine ⟨?_, fun h => ⟨hmin h, ?_⟩, fun h => ⟨hhour h, ?_⟩⟩
  · rw [hun]
    constructor
    · intro h
      simp only [Bool.not_eq_true', Bool.or_eq_false_iff] at h
      exact ⟨h.2.2.1, h.2.1, h.1⟩
    · rintro ⟨h0, h1, h2⟩
      have hc : ¬ data.last_minute ≠ t.tm_min := by
        intro h
        rw [hmin h] at h2
        cases h2
      simp [h0, h1, h2, hc]
  · rw [hun, hmin h]; rfl
  · rw [hun, hhour h]; simp

/-! Rows reached from `init_sliding_row`. -/

theorem RowOk_update (row : SlidingRow) (h : RowOk row) : RowOk (update_sliding_row row).1 := by
  obtain ⟨hin, hout⟩ := h
  cases hs : row.state
  · have hp := hin (Or.inl hs)
    by_cases hx : stepped row ≤ row.still_pos
    · rw [update_moving_in_clamp row hs hx]; simp [RowOk, hp]
    · rw [update_moving_in_go row hs (by omega)]; simp [RowOk, hp, hs]
  · rw [update_in_frame row hs]; exact ⟨hin, hout⟩
  · obtain ⟨hp, ht⟩ := hout (Or.inl hs)
    by_cases hc : counted row ≤ row.movement_delay
    · rw [update_prepare_wait row hs hc]; simp [RowOk, hp, ht, hs, layer_set_frame]
    · rw [update_prepare_go row hs (by omega)]; simp [RowOk, hp, ht, layer_set_frame]
  · obtain ⟨hp, ht⟩ := hout (Or.inr hs)
    by_cases hx : stepped row ≤ row.left_pos
    · rw [update_moving_out_wrap row hs hx]; simp [RowOk]
    · rw [update_moving_out_go row hs (by omega)]; simp [RowOk, hp, ht, hs, layer_set_frame]

theorem RowOk_slide (row : SlidingRow) (b : Buf) (h : RowOk row) :
    RowOk (slide_in_text row (some b)) := by
  obtain ⟨hin, hout⟩ := h
  cases ht : row.label.text with
  | some old => simp [RowOk, slide_in_text, ht]
  | none =>
    have hp : row.next_string = none := by
      cases hs : row.state
      · exact hin (Or.inl hs)
      · exact hin (Or.inr hs)
      · exact absurd ht (hout (Or.inl hs)).2
      · exact absurd ht (hout (Or.inr hs)).2
    simp [RowOk, slide_in_text, ht, hp]

theorem RowOk_swap (row : SlidingRow) (b : Buf) (h : RowOk row) :
    RowOk { row with label := text_layer_set_text row.label (some b) } := by
  obtain ⟨hin, hout⟩ := h
  exact ⟨hin, fun hs => ⟨(hout hs).1, by simp [text_layer_set_text]⟩⟩

theorem RowOk_apply_op (row : SlidingRow) (op : RowOp) (hop : op.nonnull = true)
    (h : RowOk row) : RowOk (apply_op row op) := by
  cases op with
  | slide new_text =>
    cases new_text with
    | none => simp [RowOp.nonnull] at hop
    | some b => exact RowOk_slide row b h
  | swap text =>
    cases text with
    | none => simp [RowOp.nonnull] at hop
    | some b => exact RowOk_swap row b h
  | update => exact RowOk_update row h

theorem RowOk_run_ops (ops : List RowOp) : ∀ row : SlidingRow,
    (∀ op ∈ ops, op.nonnull = true) → RowOk row → RowOk (run_ops row ops) := by
  induction ops with
  | nil => intro row _ h; exact h
  | cons op ops ih =>
    intro row hops h
    exact ih _ (fun o ho => hops o (List.mem_cons_of_mem _ ho))
      (RowOk_apply_op row op (hops op (List.mem_cons_self _ _)) h)

theorem RowOk_init (data : SlidingTextData) (pos : GRect) (font : Bool) (delay : Int) :
    RowOk (init_sliding_row data pos font delay).2 := by
  simp [RowOk, init_sliding_row]

/-- C16: in every row state reached from `init_sliding_row` by `slide_in_text` calls with
non-null text, silent swaps to a non-null text and `update_sliding_row` calls, the pending
text is null in `MOVING_IN` and `IN_FRAME`, and in `PREPARE_TO_MOVE` and `MOVING_OUT`
the pending and the displayed text are both non-null; so the text that the last call of
`MOVING_OUT` installs is not null. -/
theorem pending_text_goes_with_state (data : SlidingTextData) (pos : GRect) (font : Bool)
    (delay : Int) (ops : List RowOp) (hops : ∀ op ∈ ops, op.nonnull = true) :
    (((run_ops (init_sliding_row data pos font delay).2 ops).state = MOVING_IN ∨
      (run_ops (init_sliding_row data pos font delay).2 ops).state = IN_FRAME) →
      (run_ops (init_sliding_row data pos font delay).2 ops).next_string = none) ∧
    (((run_ops (init_sliding_row data pos font delay).2 ops).state = PREPARE_TO_MOVE ∨
      (run_ops (init_sliding_row data pos font delay).2 ops).state = MOVING_OUT) →
      (run_ops (init_sliding_row data pos font delay).2 ops).next_string ≠ none ∧
      (run_ops (init_sliding_row data pos font delay).2 ops).label.text ≠ none) ∧
    ((run_ops (init_sliding_row data pos font delay).2 ops).state = MOVING_OUT →
      (update_sliding_row (run_ops (init_sliding_row data pos font delay).2 ops)).1.state
        = MOVING_IN →
      (update_sliding_row (run_ops (init_sliding_row data pos font delay).2 ops)).1.label.text
        = (run_ops (init_sliding_row data pos font delay).2 ops).next_string ∧
      (update_sliding_row (run_ops (init_sliding_row data pos font delay).2 ops)).1.label.text
        ≠ none) := by
  have hok := RowOk_run_ops ops _ hops (RowOk_init data pos font delay)
  refine ⟨hok.1, hok.2, fun hs hin => ?_⟩
  have hp := (hok.2 (Or.inr hs)).1
  by_cases hx : stepped (run_ops (init_sliding_row data pos font delay).2 ops)
      ≤ (run_ops (init_sliding_row data pos font delay).2 ops).left_pos
  · rw [update_moving_out_wrap _ hs hx]
    exact ⟨rfl, hp⟩
  · rw [update_moving_out_go _ hs (by omega)] at hin
    rw [hs] at hin
    cases hin

theorem pending_text_goes_with_state_witness :
    (run_ops (init_sliding_row mem0 ⟨⟨0, 6⟩, ⟨144, 60⟩⟩ true 6).2
      ([RowOp.slide (some (Buf.hours 0)), RowOp.update, RowOp.swap (some (Buf.hours 1)),
        RowOp.slide (some (Buf.hours 0))] ++ List.replicate 7 RowOp.update)).state
      = MOVING_OUT ∧
    (run_ops (init_sliding_row mem0 ⟨⟨0, 6⟩, ⟨144, 60⟩⟩ true 6).2
      ([RowOp.slide (some (Buf.hours 0)), RowOp.update, RowOp.swap (some (Buf.hours 1)),
        RowOp.slide (some (Buf.hours 0))] ++ List.replicate 7 RowOp.update)).next_string
      ≠ none :=
  ⟨by decide,
   ((pending_text_goes_with_state mem0 ⟨⟨0, 6⟩, ⟨144, 60⟩⟩ true 6
      ([RowOp.slide (some (Buf.hours 0)), RowOp.update, RowOp.swap (some (Buf.hours 1)),
        RowOp.slide (some (Buf.hours 0))] ++ List.replicate 7 RowOp.update)
      (by decide)).2.1 (Or.inr (by decide))).1⟩

theorem rest_apply_op (row : SlidingRow) (op : RowOp)
    (h : row.state = IN_FRAME → row.label.frame.origin.x = row.still_pos) :
    ((apply_op row op).state = IN_FRAME →
      (apply_op row op).label.frame.origin.x = (apply_op row op).still_pos) ∧
    (apply_op row op).still_pos = row.still_pos := by
  cases op with
  | slide new_text =>
    constructor
    · intro hs; exact absurd hs (slide_in_text_state row new_text)
    · simp only [apply_op, slide_in_text]; split <;> rfl
  | swap text => exact ⟨h, rfl⟩
  | update =>
    simp only [apply_op]
    cases hs : row.state
    · by_cases hx : stepped row ≤ row.still_pos
      · rw [update_moving_in_clamp row hs hx]; simp [layer_set_frame]
      · rw [update_moving_in_go row hs (by omega)]; simp [hs]
    · rw [update_in_frame row hs]; exact ⟨h, rfl⟩
    · by_cases hc : counted row ≤ row.movement_delay
      · rw [update_prepare_wait row hs hc]; simp [hs]
      · rw [update_prepare_go row hs (by omega)]; simp
    · by_cases hx : stepped row ≤ row.left_pos
      · rw [update_moving_out_wrap row hs hx]; simp
      · rw [update_moving_out_go row hs (by omega)]; simp [hs]

theorem rest_run_ops (ops : List RowOp) : ∀ row : SlidingRow,
    (row.state = IN_FRAME → row.label.frame.origin.x = row.still_pos) →
    ((run_ops row ops).state = IN_FRAME →
      (run_ops row ops).label.frame.origin.x = (run_ops row ops).still_pos) ∧
    (run_ops row ops).still_pos = row.still_pos := by
  induction ops with
  | nil => intro row h; exact ⟨h, rfl⟩
  | cons op ops ih =>
    intro row h
    obtain ⟨h1, h2⟩ := rest_apply_op row op h
    obtain ⟨k1, k2⟩ := ih _ h1
    exact ⟨k1, by rw [← h2]; exact k2⟩

/-- C19: in every row state reached from `init_sliding_row`, whose layer is created at
`x = still_pos`, by any `slide_in_text` calls, silent text swaps and `update_sliding_row`
calls, a row in `IN_FRAME` is at `still_pos`, which is the `x` the layer was created at. -/
theorem in_frame_at_rest (data : SlidingTextData) (pos : GRect) (font : Bool) (delay : Int)
    (ops : List RowOp) :
    (init_sliding_row data pos font delay).2.label.frame.origin.x
      = (init_sliding_row data pos font delay).2.still_pos ∧
    (run_ops (init_sliding_row data pos font delay).2 ops).still_pos = pos.origin.x ∧
    ((run_ops (init_sliding_row data pos font delay).2 ops).state = IN_FRAME →
      (run_ops (init_sliding_row data pos font delay).2 ops).label.frame.origin.x
        = (run_ops (init_sliding_row data pos font delay).2 ops).still_pos) := by
  have h0 : (init_sliding_row data pos font delay).2.label.frame.origin.x
      = (init_sliding_row data pos font delay).2.still_pos := rfl
  obtain ⟨h1, h2⟩ := rest_run_ops ops (init_sliding_row data pos font delay).2 (fun _ => h0)
  exact ⟨h0, h2, h1⟩

theorem in_frame_at_rest_witness :
    (run_ops (init_sliding_row mem0 ⟨⟨0, 6⟩, ⟨144, 60⟩⟩ true 6).2
      (RowOp.slide (some (Buf.hours 0)) :: List.replicate 11 RowOp.update)).state = IN_FRAME ∧
    (run_ops (init_sliding_row mem0 ⟨⟨0, 6⟩, ⟨144, 60⟩⟩ true 6).2
      (RowOp.slide (some (Buf.hours 0)) :: List.replicate 11 RowOp.update)).label.frame.origin.x
      = 0 :=
  ⟨by decide,
   (in_frame_at_rest mem0 ⟨⟨0, 6⟩, ⟨144, 60⟩⟩ true 6
      (RowOp.slide (some (Buf.hours 0)) :: List.replicate 11 RowOp.update)).2.2 (by decide)⟩

/-! The first frame. -/

theorem time_part_last (data : SlidingTextData) (t : Tm) :
    (time_part data t).last_hour = t.tm_hour ∧ (time_part data t).last_minute = t.tm_min := by
  have hm : (minute_part data t).1.last_minute = t.tm_min := by
    unfold minute_part
    split
    · rfl
    · next h => simpa using h
  constructor
  · unfold time_part hour_part
    split
    · rfl
    · next h => simpa using h
  · unfold time_part hour_part
    split
    · exact hm
    · exact hm

theorem time_part_rows1 (data : SlidingTextData) (t : Tm) (h : data.last_minute ≠ t.tm_min)
    (hh : data.last_hour ≠ t.tm_hour) :
    (time_part data t).rows1 =
      slide_in_text data.rows1 (some (Buf.first_minutes data.render_state.next_minutes)) := by
  have hrow : (time_part data t).rows1 = (minute_part data t).1.rows1 := by
    unfold time_part hour_part
    split <;> rfl
  rw [hrow]
  unfold minute_part
  rw [if_pos h]
  dsimp only
  rw [if_pos (Or.inl hh)]

theorem update_moving_in_keeps (row : SlidingRow) (h : row.state = MOVING_IN) :
    (update_sliding_row row).1.label.text = row.label.text ∧
    (update_sliding_row row).1.next_string = row.next_string ∧
    ((update_sliding_row row).1.state = MOVING_IN ∨
      (update_sliding_row row).1.state = IN_FRAME) := by
  by_cases hx : stepped row ≤ row.still_pos
  · rw [update_moving_in_clamp row h hx]; simp [layer_set_frame]
  · rw [update_moving_in_go row h (by omega)]; simp [layer_set_frame, h]

theorem populate_then_update (row : SlidingRow) (b : Buf) (ht : row.label.text = none)
    (hp : row.next_string = none) :
    (update_sliding_row (slide_in_text row (some b))).1.label.text = some b ∧
    (update_sliding_row (slide_in_text row (some b))).1.next_string = none ∧
    (update_sliding_row (slide_in_text row (some b))).1.state ≠ PREPARE_TO_MOVE ∧
    (update_sliding_row (slide_in_text row (some b))).1.state ≠ MOVING_OUT := by
  have hr : slide_in_text row (some b) =
      { row with
        label := layer_set_frame (text_layer_set_text row.label (some b))
          { row.label.frame with origin := { row.label.frame.origin with x := row.right_pos } }
        state := MOVING_IN } := by
    simp [slide_in_text, ht, text_layer_set_text]
  have hs : (slide_in_text row (some b)).state = MOVING_IN := by rw [hr]
  obtain ⟨k1, k2, k3⟩ := update_moving_in_keeps _ hs
  refine ⟨?_, ?_, ?_, ?_⟩
  · rw [k1, hr]; rfl
  · rw [k2, hr]; exact hp
  · rcases k3 with k3 | k3 <;> rw [k3] <;> decide
  · rcases k3 with k3 | k3 <;> rw [k3] <;> decide

/-- C14: for a clock reading with hour in 0..23 and minute in 0..59, the first frame of
`animation_update` on the initial state (last hour and minute -1, no row with a text, next
indexes 0) formats into slot 0 of each field and gives each row its slot through the
no-text branch of `slide_in_text`; at the end of the frame each row displays slot 0 of
its field, no row has a pending text or is in `PREPARE_TO_MOVE` or `MOVING_OUT`, and
`last_hour`, `last_minute` are the reading. -/
theorem first_frame_populates (mem : SlidingTextData) (width : Int) (round : Bool) (t : Tm)
    (hh0 : 0 ≤ t.tm_hour) (_hh1 : t.tm_hour ≤ 23) (hm0 : 0 ≤ t.tm_min) (_hm1 : t.tm_min ≤ 59) :
    ((handle_init mem width round).last_hour = -1 ∧
     (handle_init mem width round).last_minute = -1 ∧
     (handle_init mem width round).rows0.label.text = none ∧
     (handle_init mem width round).rows1.label.text = none ∧
     (handle_init mem width round).rows2.label.text = none ∧
     (handle_init mem width round).render_state = ⟨0, 0⟩) ∧
    (animation_update (handle_init mem width round) t).writes.map Write.slot
      = [Buf.first_minutes 0, Buf.second_minutes 0, Buf.hours 0] ∧
    ((time_part (handle_init mem width round) t).rows0.state = MOVING_IN ∧
     (time_part (handle_init mem width round) t).rows1.state = MOVING_IN ∧
     (time_part (handle_init mem width round) t).rows2.state = MOVING_IN) ∧
    ((animation_update (handle_init mem width round) t).data.rows0.label.text
        = some (Buf.hours 0) ∧
     (animation_update (handle_init mem width round) t).data.rows1.label.text
        = some (Buf.first_minutes 0) ∧
     (animation_update (handle_init mem width round) t).data.rows2.label.text
        = some (Buf.second_minutes 0)) ∧
    ((animation_update (handle_init mem width round) t).data.rows0.next_string = none ∧
     (animation_update (handle_init mem width round) t).data.rows1.next_string = none ∧
     (animation_update (handle_init mem width round) t).data.rows2.next_string = none) ∧
    ((animation_update (handle_init mem width round) t).data.rows0.state ≠ PREPARE_TO_MOVE ∧
     (animation_update (handle_init mem width round) t).data.rows0.state ≠ MOVING_OUT ∧
     (animation_update (handle_init mem width round) t).data.rows1.state ≠ PREPARE_TO_MOVE ∧
     (animation_update (handle_init mem width round) t).data.rows1.state ≠ MOVING_OUT ∧
     (animation_update (handle_init mem width round) t).data.rows2.state ≠ PREPARE_TO_MOVE ∧
     (animation_update (handle_init mem width round) t).data.rows2.state ≠ MOVING_OUT) ∧
    (animation_update (handle_init mem width round) t).data.last_hour = t.tm_hour ∧
    (animation_update (handle_init mem width round) t).data.last_minute = t.tm_min := by
  have hlh : (handle_init mem width round).last_hour = -1 := rfl
  have hlm : (handle_init mem width round).last_minute = -1 := rfl
  have ht0 : (handle_init mem width round).rows0.label.text = none := rfl
  have ht1 : (handle_init mem width round).rows1.label.text = none := rfl
  have ht2 : (handle_init mem width round).rows2.label.text = none := rfl
  have hp0 : (handle_init mem width round).rows0.next_string = none := rfl
  have hp1 : (handle_init mem width round).rows1.next_string = none := rfl
  have hp2 : (handle_init mem width round).rows2.next_string = none := rfl
  have hrs : (handle_init mem width round).render_state = ⟨0, 0⟩ := rfl
  have hm : (handle_init mem width round).last_minute ≠ t.tm_min := by rw [hlm]; omega
  have hh : (handle_init mem width round).last_hour ≠ t.tm_hour := by rw [hlh]; omega
  have e0 := time_part_rows0 _ t hh
  have e1 := time_part_rows1 _ t hm hh
  have e2 := time_part_rows2 _ t hm
  rw [hrs] at e0 e1 e2
  have d0 : (animation_update (handle_init mem width round) t).data.rows0
      = (update_sliding_row (time_part (handle_init mem width round) t).rows0).1 := rfl
  have d1 : (animation_update (handle_init mem width round) t).data.rows1
      = (update_sliding_row (time_part (handle_init mem width round) t).rows1).1 := rfl
  have d2 : (animation_update (handle_init mem width round) t).data.rows2
      = (update_sliding_row (time_part (handle_init mem width round) t).rows2).1 := rfl
  obtain ⟨a1, a2, a3, a4⟩ := populate_then_update _ (Buf.hours 0) ht0 hp0
  obtain ⟨b1, b2, b3, b4⟩ := populate_then_update _ (Buf.first_minutes 0) ht1 hp1
  obtain ⟨c1, c2, c3, c4⟩ := populate_then_update _ (Buf.second_minutes 0) ht2 hp2
  have hl := time_part_last (handle_init mem width round) t
  refine ⟨⟨hlh, hlm, ht0, ht1, ht2, hrs⟩, ?_, ⟨?_, ?_, ?_⟩, ⟨?_, ?_, ?_⟩, ⟨?_, ?_, ?_⟩,
    ⟨?_, ?_, ?_, ?_, ?_, ?_⟩, hl.1, hl.2⟩
  · obtain ⟨m0, m1, m2⟩ := minute_part_rows0 (handle_init mem width round) t
    rw [animation_update_writes]
    have w1 : (minute_part (handle_init mem width round) t).2.map Write.slot
        = [Buf.first_minutes 0, Buf.second_minutes 0] := by
      unfold minute_part
      rw [if_pos hm]
      simp [hrs]
    have w2 : (hour_part (minute_part (handle_init mem width round) t).1 t).2.map Write.slot
        = [Buf.hours 0] := by
      unfold hour_part
      rw [if_pos (by rw [m1]; exact hh)]
      simp [m2, hrs]
    rw [List.map_append, w1, w2]
    rfl
  · rw [e0]; simp [slide_in_text, ht0]
  · rw [e1]; simp [slide_in_text, ht1]
  · rw [e2]; simp [slide_in_text, ht2]
  · rw [d0, e0]; exact a1
  · rw [d1, e1]; exact b1
  · rw [d2, e2]; exact c1
  · rw [d0, e0]; exact a2
  · rw [d1, e1]; exact b2
  · rw [d2, e2]; exact c2
  · rw [d0, e0]; exact a3
  · rw [d0, e0]; exact a4
  · rw [d1, e1]; exact b3
  · rw [d1, e1]; exact b4
  · rw [d2, e2]; exact c3
  · rw [d2, e2]; exact c4

theorem first_frame_populates_witness :
    (animation_update (handle_init mem0 144 false) ⟨9, 5⟩).data.rows0.label.text
      = some (Buf.hours 0) ∧
    (animation_update (handle_init mem0 144 false) ⟨9, 5⟩).data.rows1.label.text
      = some (Buf.first_minutes 0) ∧
    (animation_update (handle_init mem0 144 false) ⟨9, 5⟩).data.rows2.label.text
      = some (Buf.second_minutes 0) ∧
    (animation_update (handle_init mem0 144 false) ⟨9, 5⟩).data.last_hour = 9 ∧
    (animation_update (handle_init mem0 144 false) ⟨9, 5⟩).data.last_minute = 5 :=
  ⟨(first_frame_populates mem0 144 false ⟨9, 5⟩ (by decide) (by decide) (by decide)
      (by decide)).2.2.2.1.1,
   (first_frame_populates mem0 144 false ⟨9, 5⟩ (by decide) (by decide) (by decide)
      (by decide)).2.2.2.1.2.1,
   (first_frame_populates mem0 144 false ⟨9, 5⟩ (by decide) (by decide) (by decide)
      (by decide)).2.2.2.1.2.2,
   (first_frame_populates mem0 144 false ⟨9, 5⟩ (by decide) (by decide) (by decide)
      (by decide)).2.2.2.2.2.2.1,
   (first_frame_populates mem0 144 false ⟨9, 5⟩ (by decide) (by decide) (by decide)
      (by decide)).2.2.2.2.2.2.2⟩

/-! Alternation of the slots. -/

theorem frame_next_hours (data : SlidingTextData) (t : Tm) :
    (hour_slots (animation_update data t).writes = [] ∧
      (animation_update data t).data.render_state.next_hours = data.render_state.next_hours) ∨
    (hour_slots (animation_update data t).writes = [data.render_state.next_hours] ∧
      (animation_update data t).data.render_state.next_hours
        = toggle data.render_state.next_hours) := by
  obtain ⟨-, m1, m2⟩ := minute_part_rows0 data t
  have hmw : hour_slots (minute_part data t).2 = [] := by
    unfold minute_part
    split <;> simp [hour_slots]
  have hd : (animation_update data t).data.render_state
      = (hour_part (minute_part data t).1 t).1.render_state := rfl
  rw [animation_update_writes, hd]
  unfold hour_slots at hmw ⊢
  rw [List.filterMap_append, hmw, List.nil_append]
  unfold hour_part
  split
  · right; simp [m2]
  · left; simp [m2]

theorem frame_next_minutes (data : SlidingTextData) (t : Tm) :
    (first_minute_slots (animation_update data t).writes = [] ∧
      second_minute_slots (animation_update data t).writes = [] ∧
      (animation_update data t).data.render_state.next_minutes
        = data.render_state.next_minutes) ∨
    (first_minute_slots (animation_update data t).writes = [data.render_state.next_minutes] ∧
      second_minute_slots (animation_update data t).writes = [data.render_state.next_minutes] ∧
      (animation_update data t).data.render_state.next_minutes
        = toggle data.render_state.next_minutes) := by
  have hd : (animation_update data t).data.render_state
      = (hour_part (minute_part data t).1 t).1.render_state := rfl
  have hn : (hour_part (minute_part data t).1 t).1.render_state.next_minutes
      = (minute_part data t).1.render_state.next_minutes := by
    unfold hour_part
    split <;> rfl
  have hw1 : first_minute_slots (hour_part (minute_part data t).1 t).2 = [] := by
    unfold hour_part
    split <;> simp [first_minute_slots]
  have hw2 : second_minute_slots (hour_part (minute_part data t).1 t).2 = [] := by
    unfold hour_part
    split <;> simp [second_minute_slots]
  rw [animation_update_writes, hd, hn]
  unfold first_minute_slots at hw1
  unfold second_minute_slots at hw2
  unfold first_minute_slots second_minute_slots
  rw [List.filterMap_append, List.filterMap_append, hw1, hw2, List.append_nil, List.append_nil]
  unfold minute_part
  split
  · right; simp
  · left; simp

theorem alternate_get (k : Nat) : ∀ (n j i : Nat), (alternate n k)[j]? = some i →
    i = toggle^[j] n := by
  induction k with
  | zero => intro n j i h; simp [alternate] at h
  | succ k ih =>
    intro n j i h
    cases j with
    | zero => simpa [alternate] using h.symm
    | succ j =>
      simp only [alternate, List.getElem?_cons_succ] at h
      rw [Function.iterate_succ_apply]
      exact ih _ _ _ h

theorem toggle_iterate_le (j n : Nat) (h : n ≤ 1) : toggle^[j] n ≤ 1 := by
  cases j with
  | zero => simpa using h
  | succ j => rw [Function.iterate_succ_apply']; exact toggle_le _

/-- What the slots of a list `n, toggle n, ...` with `n` 0 or 1 do: all are 0 or 1,
neighbours differ, and a slot comes back two places on. -/
theorem alternate_spec (n k : Nat) (h : n ≤ 1) :
    (∀ i ∈ alternate n k, i ≤ 1) ∧
    (∀ j a b, (alternate n k)[j]? = some a → (alternate n k)[j + 1]? = some b → b ≠ a) ∧
    (∀ j a b, (alternate n k)[j]? = some a → (alternate n k)[j + 2]? = some b → b = a) := by
  refine ⟨?_, ?_, ?_⟩
  · intro i hi
    obtain ⟨j, hj⟩ := List.getElem?_of_mem hi
    rw [alternate_get k n j i hj]
    exact toggle_iterate_le j n h
  · intro j a b ha hb
    rw [alternate_get k n j a ha, alternate_get k n (j + 1) b hb,
      Function.iterate_succ_apply']
    exact toggle_ne _
  · intro j a b ha hb
    rw [alternate_get k n j a ha, alternate_get k n (j + 2) b hb,
      Function.iterate_succ_apply', Function.iterate_succ_apply']
    exact toggle_toggle _ (toggle_iterate_le j n h)

theorem run_hour_slots (ts : List Tm) : ∀ data : SlidingTextData,
    data.render_state.next_hours ≤ 1 →
    (run data ts).render_state.next_hours ≤ 1 ∧
    ∃ k, hour_slots (run_writes data ts) = alternate data.render_state.next_hours k := by
  induction ts with
  | nil => intro data h; exact ⟨h, 0, rfl⟩
  | cons t ts ih =>
    intro data h
    have happ : hour_slots (run_writes data (t :: ts)) =
        hour_slots (animation_update data t).writes
          ++ hour_slots (run_writes (animation_update data t).data ts) := by
      simp [run_writes, hour_slots, List.filterMap_append]
    rw [happ]
    rcases frame_next_hours data t with ⟨hw, hn⟩ | ⟨hw, hn⟩
    · obtain ⟨k1, k, hk⟩ := ih (animation_update data t).data (by rw [hn]; exact h)
      exact ⟨k1, k, by rw [hw, hk, hn]; rfl⟩
    · obtain ⟨k1, k, hk⟩ := ih (animation_update data t).data (by rw [hn]; exact toggle_le _)
      exact ⟨k1, k + 1, by rw [hw, hk, hn]; rfl⟩

theorem run_minute_slots (ts : List Tm) : ∀ data : SlidingTextData,
    data.render_state.next_minutes ≤ 1 →
    (run data ts).render_state.next_minutes ≤ 1 ∧
    ∃ k, first_minute_slots (run_writes data ts) = alternate data.render_state.next_minutes k ∧
      second_minute_slots (run_writes data ts) = alternate data.render_state.next_minutes k := by
  induction ts with
  | nil => intro data h; exact ⟨h, 0, rfl, rfl⟩
  | cons t ts ih =>
    intro data h
    have happ1 : first_minute_slots (run_writes data (t :: ts)) =
        first_minute_slots (animation_update data t).writes
          ++ first_minute_slots (run_writes (animation_update data t).data ts) := by
      simp [run_writes, first_minute_slots, List.filterMap_append]
    have happ2 : second_minute_slots (run_writes data (t :: ts)) =
        second_minute_slots (animation_update data t).writes
          ++ second_minute_slots (run_writes (animation_update data t).data ts) := by
      simp [run_writes, second_minute_slots, List.filterMap_append]
    rw [happ1, happ2]
    rcases frame_next_minutes data t with ⟨hw1, hw2, hn⟩ | ⟨hw1, hw2, hn⟩
    · obtain ⟨k1, k, hk1, hk2⟩ := ih (animation_update data t).data (by rw [hn]; exact h)
      exact ⟨k1, k, by rw [hw1, hk1, hn]; rfl, by rw [hw2, hk2, hn]; rfl⟩
    · obtain ⟨k1, k, hk1, hk2⟩ :=
        ih (animation_update data t).data (by rw [hn]; exact toggle_le _)
      exact ⟨k1, k + 1, by rw [hw1, hk1, hn]; rfl, by rw [hw2, hk2, hn]; rfl⟩

/-- C13: in every sequence of driver frames from a state whose next indexes are 0 or 1,
the next indexes stay 0 or 1 and every write goes to slot 0 or 1; for `hours` and for
`first_minutes` write `k + 1` goes to another slot than write `k` and write `k + 2` to the
same slot as write `k`; and `second_minutes` is written at the very indexes of
`first_minutes`. -/
theorem writes_alternate (data : SlidingTextData) (ts : List Tm)
    (hnh : data.render_state.next_hours ≤ 1) (hnm : data.render_state.next_minutes ≤ 1) :
    ((run data ts).render_state.next_hours ≤ 1 ∧
      (run data ts).render_state.next_minutes ≤ 1) ∧
    ((∀ i ∈ hour_slots (run_writes data ts), i ≤ 1) ∧
     (∀ k a b, (hour_slots (run_writes data ts))[k]? = some a →
        (hour_slots (run_writes data ts))[k + 1]? = some b → b ≠ a) ∧
     (∀ k a b, (hour_slots (run_writes data ts))[k]? = some a →
        (hour_slots (run_writes data ts))[k + 2]? = some b → b = a)) ∧
    ((∀ i ∈ first_minute_slots (run_writes data ts), i ≤ 1) ∧
     (∀ k a b, (first_minute_slots (run_writes data ts))[k]? = some a →
        (first_minute_slots (run_writes data ts))[k + 1]? = some b → b ≠ a) ∧
     (∀ k a b, (first_minute_slots (run_writes data ts))[k]? = some a →
        (first_minute_slots (run_writes data ts))[k + 2]? = some b → b = a)) ∧
    second_minute_slots (run_writes data ts) = first_minute_slots (run_writes data ts) := by
  obtain ⟨h1, kh, hkh⟩ := run_hour_slots ts data hnh
  obtain ⟨m1, km, hk1, hk2⟩ := run_minute_slots ts data hnm
  refine ⟨⟨h1, m1⟩, ?_, ?_, ?_⟩
  · rw [hkh]; exact alternate_spec _ _ hnh
  · rw [hk1]; exact alternate_spec _ _ hnm
  · rw [hk1, hk2]

set_option maxRecDepth 100000 in
theorem writes_alternate_witness :
    first_minute_slots (run_writes (handle_init mem0 144 false) calm_readings) = [0, 1, 0] ∧
    hour_slots (run_writes (handle_init mem0 144 false) calm_readings) = [0] ∧
    second_minute_slots (run_writes (handle_init mem0 144 false) calm_readings)
      = first_minute_slots (run_writes (handle_init mem0 144 false) calm_readings) :=
  ⟨by decide, by decide,
   (writes_alternate (handle_init mem0 144 false) calm_readings (by decide) (by decide)).2.2.2⟩

/-! A whole transition. -/

theorem busy_of_states (n : Nat) (row : SlidingRow)
    (h : ∀ k, k < n → (advance k row).state ≠ IN_FRAME) : busy n row := by
  intro k hk
  rw [update_true_iff]
  exact h k hk

theorem busy_add (a b : Nat) (row : SlidingRow) (ha : busy a row)
    (hb : busy b (advance a row)) : busy (a + b) row := by
  intro k hk
  by_cases h : k < a
  · exact ha k h
  · obtain ⟨j, rfl⟩ : ∃ j, k = a + j := ⟨k - a, by omega⟩
    rw [advance_add]
    exact hb j (by omega)

theorem frame_at_still (row : SlidingRow) (hx : row.label.frame.origin.x = row.still_pos) :
    layer_set_frame row.label
      { row.label.frame with origin := { row.label.frame.origin with x := row.still_pos } }
      = row.label := by
  rw [← hx]
  rfl

/-- A row waiting at `still_pos` with `j` frames of delay left: it waits `j` calls and call
`j + 1` turns it to `MOVING_OUT`, nothing else changed but the counter, which is 0. -/
theorem prepare_full (j : Nat) : ∀ row : SlidingRow, row.state = PREPARE_TO_MOVE →
    row.label.frame.origin.x = row.still_pos →
    0 ≤ row.delay_count → row.movement_delay < 2147483647 →
    row.delay_count + (j : Int) = row.movement_delay →
    (∀ k, k ≤ j → (advance k row).state = PREPARE_TO_MOVE) ∧
    advance (j + 1) row = { row with state := MOVING_OUT, delay_count := 0 } := by
  induction j with
  | zero =>
    intro row hs hx h0 hm hc
    have hce := counted_eq row h0 (by push_cast at hc; omega)
    refine ⟨fun k hk => ?_, ?_⟩
    · have : k = 0 := by omega
      subst this; exact hs
    · simp only [advance]
      rw [update_prepare_go row hs (by rw [hce]; push_cast at hc; omega),
        frame_at_still row hx]
  | succ j ih =>
    intro row hs hx h0 hm hc
    have hce := counted_eq row h0 (by push_cast at hc; omega)
    have hup := update_prepare_wait row hs (by rw [hce]; push_cast at hc; omega)
    rw [frame_at_still row hx, hce] at hup
    obtain ⟨h1, h2⟩ := ih (update_sliding_row row).1 (by rw [hup]; exact hs)
      (by rw [hup]; exact hx) (by rw [hup]; show 0 ≤ row.delay_count + 1; omega)
      (by rw [hup]; exact hm)
      (by rw [hup]; show row.delay_count + 1 + (j : Int) = row.movement_delay
          push_cast at hc; omega)
    refine ⟨fun k hk => ?_, ?_⟩
    · cases k with
      | zero => exact hs
      | succ k => rw [advance_succ]; exact h1 k (by omega)
    · rw [advance_succ, h2, hup]

theorem moving_out_full (d : Nat) : ∀ row : SlidingRow, row.state = MOVING_OUT →
    row.label.frame.origin.x - row.left_pos = (d : Int) + 1 →
    -16384 ≤ row.left_pos → row.label.frame.origin.x ≤ 16384 →
    -16384 ≤ row.still_pos → row.still_pos ≤ 16384 →
    ∃ n : Nat, n ≤ d ∧
      (∀ k, k ≤ n → (advance k row).state = MOVING_OUT) ∧
      advance (n + 1) row =
        { row with
          state := MOVING_IN
          next_string := none
          label := layer_set_frame (text_layer_set_text row.label row.next_string)
            { row.label.frame with
              origin := { row.label.frame.origin with x := row.right_pos } } } := by
  induction d using Nat.strong_induction_on with
  | _ d ih =>
    intro row hs hd hl hx2 hs1 hs2
    by_cases hx : stepped row ≤ row.left_pos
    · refine ⟨0, by omega, ?_, ?_⟩
      · intro k hk
        have : k = 0 := by omega
        subst this; exact hs
      · simp only [advance]
        exact update_moving_out_wrap row hs hx
    · have hgt : row.left_pos < stepped row := by omega
      have hup := update_moving_out_go row hs hgt
      obtain ⟨-, hsp, -⟩ := stepped_in_range row (by omega) hx2 hs1 hs2
      obtain ⟨e, he⟩ : ∃ e : Nat, stepped row - row.left_pos = (e : Int) + 1 :=
        ⟨(stepped row - row.left_pos - 1).toNat, by omega⟩
      have hed : e < d := by omega
      obtain ⟨n, hn1, hnk, hne⟩ :=
        ih e hed (update_sliding_row row).1 (by rw [hup]; exact hs)
          (by rw [hup]; simpa [layer_set_frame] using he)
          (by rw [hup]; exact hl)
          (by rw [hup]; show stepped row ≤ 16384; omega)
          (by rw [hup]; exact hs1) (by rw [hup]; exact hs2)
      refine ⟨n + 1, by omega, ?_, ?_⟩
      · intro k hk
        cases k with
        | zero => exact hs
        | succ k => rw [advance_succ]; exact hnk k (by omega)
      · rw [advance_succ, hne, hup]
        simp [layer_set_frame, text_layer_set_text]

theorem moving_in_full (d : Nat) : ∀ row : SlidingRow, row.state = MOVING_IN →
    row.label.frame.origin.x - row.still_pos = (d : Int) + 1 →
    -32768 ≤ row.still_pos → row.label.frame.origin.x ≤ 32767 →
    ∃ n : Nat, 1 ≤ n ∧ n ≤ d + 1 ∧
      (∀ k, k < n → (advance k row).state = MOVING_IN) ∧
      advance n row =
        { row with
          state := IN_FRAME
          label := layer_set_frame row.label
            { row.label.frame with
              origin := { row.label.frame.origin with x := row.still_pos } } } := by
  induction d using Nat.strong_induction_on with
  | _ d ih =>
    intro row hs hd hlo hhi
    have habs : |row.label.frame.origin.x - row.still_pos| = (d : Int) + 1 := by
      rw [hd]; exact abs_of_nonneg (by omega)
    have hstep : stepped row = row.label.frame.origin.x - (((d : Int) + 1) / 3 + 1) := by
      unfold stepped; rw [habs]
      exact wrap16_eq _ (by omega) (by omega)
    by_cases hx : stepped row ≤ row.still_pos
    · refine ⟨1, le_refl 1, by omega, ?_, ?_⟩
      · intro k hk
        have : k = 0 := by omega
        subst this; exact hs
      · simp only [advance]
        exact update_moving_in_clamp row hs hx
    · have hx2 : row.still_pos < stepped row := by omega
      have hup := update_moving_in_go row hs hx2
      obtain ⟨e, he⟩ : ∃ e : Nat, stepped row - row.still_pos = (e : Int) + 1 :=
        ⟨(stepped row - row.still_pos - 1).toNat, by omega⟩
      have hed : e < d := by omega
      obtain ⟨n, hn1, hn2, hnk, hne⟩ :=
        ih e hed (update_sliding_row row).1 (by rw [hup]; exact hs)
          (by rw [hup]; simpa [layer_set_frame] using he)
          (by rw [hup]; exact hlo)
          (by rw [hup]; show stepped row ≤ 32767; omega)
      refine ⟨n + 1, by omega, by omega, ?_, ?_⟩
      · intro k hk
        cases k with
        | zero => exact hs
        | succ k => rw [advance_succ]; exact hnk k (by omega)
      · rw [advance_succ, hne, hup]
        simp [layer_set_frame]

set_option maxRecDepth 100000 in
/-- C17 fails as stated, in two ways.  The hour row of a 32767 wide layer built by
`handle_init`, at rest with a text, counter 0, delay 6 and
`left_pos < still_pos < right_pos`, is given a new text: its exit slide wraps in
`int16_t` and it is never in `IN_FRAME` again.  A row made by `init_sliding_row` with the
delay `INT_MAX`, at rest likewise, never leaves `PREPARE_TO_MOVE`. -/
theorem transition_completes_counterexample :
    (wide_row_at_rest.state = IN_FRAME ∧
      wide_row_at_rest.label.frame.origin.x = wide_row_at_rest.still_pos ∧
      wide_row_at_rest.label.text = some (Buf.hours 0) ∧
      wide_row_at_rest.delay_count = 0 ∧ wide_row_at_rest.movement_delay = 6 ∧
      wide_row_at_rest.left_pos < wide_row_at_rest.still_pos ∧
      wide_row_at_rest.still_pos < wide_row_at_rest.right_pos ∧
      ∀ n, (advance n (slide_in_text wide_row_at_rest (some (Buf.hours 1)))).state
        ≠ IN_FRAME) ∧
    (lazy_row_at_rest.state = IN_FRAME ∧
      lazy_row_at_rest.label.frame.origin.x = lazy_row_at_rest.still_pos ∧
      lazy_row_at_rest.label.text = some (Buf.hours 0) ∧
      lazy_row_at_rest.delay_count = 0 ∧ 0 ≤ lazy_row_at_rest.movement_delay ∧
      lazy_row_at_rest.left_pos < lazy_row_at_rest.still_pos ∧
      lazy_row_at_rest.still_pos < lazy_row_at_rest.right_pos ∧
      ∀ n, (advance n (slide_in_text lazy_row_at_rest (some (Buf.hours 1)))).state
        ≠ IN_FRAME) := by
  refine ⟨⟨by decide, by decide, by decide, by decide, by decide, by decide, by decide, ?_⟩,
    ⟨by decide, by decide, by decide, by decide, by decide, by decide, by decide, ?_⟩⟩
  · intro n
    by_cases h : n < 7
    · have h7 : ∀ k, k < 7 →
          (advance k (slide_in_text wide_row_at_rest (some (Buf.hours 1)))).state
            = PREPARE_TO_MOVE :=
        stays_spec PREPARE_TO_MOVE 7 _ (by decide)
      rw [h7 n h]
      decide
    · obtain ⟨m, rfl⟩ : ∃ m, n = 7 + m := ⟨n - 7, by omega⟩
      rw [advance_add]
      have := wide_row_never_leaves m
      unfold wide_row_leaving at this
      rw [this]
      decide
  · intro n
    rw [prepare_forever n _ (by decide) (by decide)]
    decide

/-- C17, amended: a row in `IN_FRAME` at `still_pos` that displays a text, with counter 0,
delay `0 <= d < INT_MAX` and `-16384 <= left_pos < still_pos < right_pos <= 16384`, is
given `new_text` by `slide_in_text`; then for some
`n <= (d + 1) + (still_pos - left_pos) + (right_pos - still_pos)` each of the first `n`
calls of `update_sliding_row` returns true, and after them the row is in `IN_FRAME` at
`still_pos`, displays `new_text` and has no pending text. -/
theorem transition_completes (row : SlidingRow) (old : Buf) (new_text : Option Buf)
    (_hs : row.state = IN_FRAME) (hx : row.label.frame.origin.x = row.still_pos)
    (ht : row.label.text = some old) (hc : row.delay_count = 0)
    (hd : 0 ≤ row.movement_delay) (hd2 : row.movement_delay < 2147483647)
    (hl0 : -16384 ≤ row.left_pos) (hl : row.left_pos < row.still_pos)
    (hr : row.still_pos < row.right_pos) (hr0 : row.right_pos ≤ 16384) :
    ∃ n : Nat,
      (n : Int) ≤ (row.movement_delay + 1) + (row.still_pos - row.left_pos)
        + (row.right_pos - row.still_pos) ∧
      (∀ k, k < n →
        (update_sliding_row (advance k (slide_in_text row new_text))).2 = true) ∧
      (advance n (slide_in_text row new_text)).state = IN_FRAME ∧
      (advance n (slide_in_text row new_text)).label.frame.origin.x = row.still_pos ∧
      (advance n (slide_in_text row new_text)).label.text = new_text ∧
      (advance n (slide_in_text row new_text)).next_string = none := by
  have h0 : slide_in_text row new_text =
      { row with next_string := new_text, state := PREPARE_TO_MOVE } := by
    simp [slide_in_text, ht]
  -- the wait
  obtain ⟨w1, w2⟩ := prepare_full row.movement_delay.toNat (slide_in_text row new_text)
    (by rw [h0]) (by rw [h0]; exact hx) (by rw [h0]; simp only [hc]; omega)
    (by rw [h0]; exact hd2) (by rw [h0]; simp only [hc]; omega)
  -- the way out
  obtain ⟨e, he⟩ : ∃ e : Nat, row.still_pos - row.left_pos = (e : Int) + 1 :=
    ⟨(row.still_pos - row.left_pos - 1).toNat, by omega⟩
  obtain ⟨n2, hn2, o1, o2⟩ := moving_out_full e
    (advance (row.movement_delay.toNat + 1) (slide_in_text row new_text))
    (by rw [w2, h0]) (by rw [w2, h0]; simp only [hx]; exact he)
    (by rw [w2, h0]; exact hl0) (by rw [w2, h0]; simp only [hx]; omega)
    (by rw [w2, h0]; show -16384 ≤ row.still_pos; omega)
    (by rw [w2, h0]; show row.still_pos ≤ 16384; omega)
  -- the way in
  obtain ⟨f, hf⟩ : ∃ f : Nat, row.right_pos - row.still_pos = (f : Int) + 1 :=
    ⟨(row.right_pos - row.still_pos - 1).toNat, by omega⟩
  obtain ⟨n3, hn3, hn3b, i1, i2⟩ := moving_in_full f
    (advance (n2 + 1) (advance (row.movement_delay.toNat + 1) (slide_in_text row new_text)))
    (by rw [o2]) (by rw [o2, w2, h0]; simpa [layer_set_frame] using hf)
    (by rw [o2, w2, h0]; show -32768 ≤ row.still_pos; omega)
    (by rw [o2, w2, h0]; show row.right_pos ≤ 32767; omega)
  have hsplit : advance (row.movement_delay.toNat + 1 + (n2 + 1) + n3)
      (slide_in_text row new_text) =
      advance n3 (advance (n2 + 1)
        (advance (row.movement_delay.toNat + 1) (slide_in_text row new_text))) := by
    rw [advance_add, advance_add]
  have hbusy : busy (row.movement_delay.toNat + 1 + (n2 + 1) + n3)
      (slide_in_text row new_text) := by
    apply busy_add
    · apply busy_add
      · apply busy_of_states
        intro k hk
        rw [w1 k (by omega)]
        decide
      · apply busy_of_states
        intro k hk
        rw [o1 k (by omega)]
        decide
    · rw [advance_add]
      apply busy_of_states
      intro k hk
      rw [i1 k hk]
      decide
  refine ⟨row.movement_delay.toNat + 1 + (n2 + 1) + n3, ?_, hbusy, ?_, ?_, ?_, ?_⟩
  · push_cast
    omega
  · rw [hsplit, i2]
  · rw [hsplit, i2, o2, w2, h0]
    simp [layer_set_frame]
  · rw [hsplit, i2, o2, w2, h0]
    simp [layer_set_frame, text_layer_set_text]
  · rw [hsplit, i2, o2]

theorem transition_completes_witness :
    (advance 12 row_entering).state = IN_FRAME ∧
    ∃ n : Nat, (n : Int) ≤ (6 + 1) + (0 - (-144)) + (144 - 0) ∧
      (∀ k, k < n →
        (update_sliding_row (advance k
          (slide_in_text (advance 12 row_entering) (some (Buf.hours 1))))).2 = true) ∧
      (advance n (slide_in_text (advance 12 row_entering) (some (Buf.hours 1)))).state
        = IN_FRAME ∧
      (advance n (slide_in_text (advance 12 row_entering)
        (some (Buf.hours 1)))).label.frame.origin.x = 0 ∧
      (advance n (slide_in_text (advance 12 row_entering) (some (Buf.hours 1)))).label.text
        = some (Buf.hours 1) ∧
      (advance n (slide_in_text (advance 12 row_entering) (some (Buf.hours 1)))).next_string
        = none :=
  ⟨by decide,
   transition_completes (advance 12 row_entering) (Buf.hours 0) (some (Buf.hours 1))
    (by decide) (by decide) (by decide) (by decide) (by decide) (by decide) (by decide)
    (by decide) (by decide) (by decide)⟩

/-! Clock changes at rest. -/

theorem RowOk_minute_part (data : SlidingTextData) (t : Tm)
    (h : RowOk data.rows0 ∧ RowOk data.rows1 ∧ RowOk data.rows2) :
    RowOk (minute_part data t).1.rows0 ∧ RowOk (minute_part data t).1.rows1 ∧
      RowOk (minute_part data t).1.rows2 := by
  obtain ⟨h0, h1, h2⟩ := h
  unfold minute_part
  split
  · dsimp only
    split
    · exact ⟨h0, RowOk_slide _ _ h1, RowOk_slide _ _ h2⟩
    · exact ⟨h0, RowOk_swap _ _ h1, RowOk_slide _ _ h2⟩
  · exact ⟨h0, h1, h2⟩

theorem RowOk_hour_part (data : SlidingTextData) (t : Tm)
    (h : RowOk data.rows0 ∧ RowOk data.rows1 ∧ RowOk data.rows2) :
    RowOk (hour_part data t).1.rows0 ∧ RowOk (hour_part data t).1.rows1 ∧
      RowOk (hour_part data t).1.rows2 := by
  obtain ⟨h0, h1, h2⟩ := h
  unfold hour_part
  split
  · exact ⟨RowOk_slide _ _ h0, h1, h2⟩
  · exact ⟨h0, h1, h2⟩

theorem RowOk_animation_update (data : SlidingTextData) (t : Tm)
    (h : RowOk data.rows0 ∧ RowOk data.rows1 ∧ RowOk data.rows2) :
    RowOk (animation_update data t).data.rows0 ∧ RowOk (animation_update data t).data.rows1 ∧
      RowOk (animation_update data t).data.rows2 := by
  obtain ⟨h0, h1, h2⟩ := RowOk_hour_part _ t (RowOk_minute_part data t h)
  rw [animation_update_data]
  exact ⟨RowOk_update _ h0, RowOk_update _ h1, RowOk_update _ h2⟩

theorem RowOk_run (ts : List Tm) : ∀ data : SlidingTextData,
    (RowOk data.rows0 ∧ RowOk data.rows1 ∧ RowOk data.rows2) →
    RowOk (run data ts).rows0 ∧ RowOk (run data ts).rows1 ∧ RowOk (run data ts).rows2 := by
  induction ts with
  | nil => intro data h; exact h
  | cons t ts ih => intro data h; exact ih _ (RowOk_animation_update data t h)

theorem RowOk_handle_init (mem : SlidingTextData) (width : Int) (round : Bool) :
    RowOk (handle_init mem width round).rows0 ∧ RowOk (handle_init mem width round).rows1 ∧
      RowOk (handle_init mem width round).rows2 := by
  simp [RowOk, handle_init, init_sliding_row]

theorem Settled_of_Idle (data : SlidingTextData) (t : Tm)
    (h : RowOk data.rows0 ∧ RowOk data.rows1 ∧ RowOk data.rows2) (hi : Idle data t) :
    Settled data t := by
  obtain ⟨h0, h1, h2⟩ := h
  constructor
  · intro hm
    obtain ⟨-, s1, s2⟩ := hi (Or.inr hm)
    exact ⟨h1.1 (Or.inr s1), h2.1 (Or.inr s2)⟩
  · intro hh
    obtain ⟨s0, -, -⟩ := hi (Or.inl hh)
    exact h0.1 (Or.inr s0)

theorem Paced_of_IdlePaced (ts : List Tm) : ∀ data : SlidingTextData,
    (RowOk data.rows0 ∧ RowOk data.rows1 ∧ RowOk data.rows2) →
    IdlePaced data ts → Paced data ts := by
  induction ts with
  | nil => intro data _ _; trivial
  | cons t ts ih =>
    intro data h hp
    exact ⟨Settled_of_Idle data t h hp.1, ih _ (RowOk_animation_update data t h) hp.2⟩

theorem IdlePaced_split (pre : List Tm) (t : Tm) (post : List Tm) : ∀ data : SlidingTextData,
    IdlePaced data (pre ++ t :: post) → IdlePaced data pre ∧ Idle (run data pre) t := by
  induction pre with
  | nil => intro data h; exact ⟨trivial, h.1⟩
  | cons s pre ih =>
    intro data h
    obtain ⟨k1, k2⟩ := ih _ h.2
    exact ⟨⟨h.1, k1⟩, k2⟩

theorem toggle_eq_sub (n : Nat) (h : n ≤ 1) : toggle n = 1 - n := by
  unfold toggle
  split <;> omega

theorem shows_only_of_RowInv (f : Nat → Buf) (n : Nat) (row : SlidingRow) (hn : n ≤ 1)
    (h : RowInv f n row) (hp : row.next_string = none) : shows_only row (f (1 - n)) := by
  rw [← toggle_eq_sub n hn]
  rcases h.2 with ht | ht | ⟨-, ht⟩
  · exact Or.inl ht
  · exact Or.inr ht
  · rw [hp] at ht; cases ht

/-- C18: in a run of the frame driver from the initial state in which the clock reading
differs from `last_hour`, `last_minute` only in frames that start with all three rows in
`IN_FRAME`, no formatter call writes into a slot that is then the displayed or the pending
text of a row; and at the start of every frame that starts with all three rows in
`IN_FRAME`, so of every frame in which the reading differs, each row displays no text or
the slot of its field at index `1 - next`. -/
theorem idle_paced_run_is_safe (mem : SlidingTextData) (width : Int) (round : Bool)
    (ts : List Tm) (hp : IdlePaced (handle_init mem width round) ts) :
    (∀ w ∈ run_writes (handle_init mem width round) ts, w.in_use = false) ∧
    (∀ pre t post, ts = pre ++ t :: post →
      ((run (handle_init mem width round) pre).rows0.state = IN_FRAME ∧
        (run (handle_init mem width round) pre).rows1.state = IN_FRAME ∧
        (run (handle_init mem width round) pre).rows2.state = IN_FRAME) →
      shows_only (run (handle_init mem width round) pre).rows0
        (Buf.hours (1 - (run (handle_init mem width round) pre).render_state.next_hours)) ∧
      shows_only (run (handle_init mem width round) pre).rows1
        (Buf.first_minutes
          (1 - (run (handle_init mem width round) pre).render_state.next_minutes)) ∧
      shows_only (run (handle_init mem width round) pre).rows2
        (Buf.second_minutes
          (1 - (run (handle_init mem width round) pre).render_state.next_minutes))) ∧
    (∀ pre t post, ts = pre ++ t :: post →
      ((run (handle_init mem width round) pre).last_hour ≠ t.tm_hour ∨
        (run (handle_init mem width round) pre).last_minute ≠ t.tm_min) →
      ((run (handle_init mem width round) pre).rows0.state = IN_FRAME ∧
        (run (handle_init mem width round) pre).rows1.state = IN_FRAME ∧
        (run (handle_init mem width round) pre).rows2.state = IN_FRAME) ∧
      shows_only (run (handle_init mem width round) pre).rows0
        (Buf.hours (1 - (run (handle_init mem width round) pre).render_state.next_hours)) ∧
      shows_only (run (handle_init mem width round) pre).rows1
        (Buf.first_minutes
          (1 - (run (handle_init mem width round) pre).render_state.next_minutes)) ∧
      shows_only (run (handle_init mem width round) pre).rows2
        (Buf.second_minutes
          (1 - (run (handle_init mem width round) pre).render_state.next_minutes))) := by
  have hok := RowOk_handle_init mem width round
  have hinv := Inv_handle_init mem width round
  have hrest : ∀ pre t post, ts = pre ++ t :: post →
      ((run (handle_init mem width round) pre).rows0.state = IN_FRAME ∧
        (run (handle_init mem width round) pre).rows1.state = IN_FRAME ∧
        (run (handle_init mem width round) pre).rows2.state = IN_FRAME) →
      shows_only (run (handle_init mem width round) pre).rows0
        (Buf.hours (1 - (run (handle_init mem width round) pre).render_state.next_hours)) ∧
      shows_only (run (handle_init mem width round) pre).rows1
        (Buf.first_minutes
          (1 - (run (handle_init mem width round) pre).render_state.next_minutes)) ∧
      shows_only (run (handle_init mem width round) pre).rows2
        (Buf.second_minutes
          (1 - (run (handle_init mem width round) pre).render_state.next_minutes)) := by
    intro pre t post hts hall
    rw [hts] at hp
    obtain ⟨hpre, -⟩ := IdlePaced_split pre t post _ hp
    obtain ⟨s0, s1, s2⟩ := hall
    obtain ⟨k0, k1, k2⟩ := RowOk_run pre _ hok
    obtain ⟨hnh, hnm, i0, i1, i2⟩ := Inv_run pre _ hinv (Paced_of_IdlePaced pre _ hok hpre)
    exact ⟨shows_only_of_RowInv Buf.hours _ _ hnh i0 (k0.1 (Or.inr s0)),
      shows_only_of_RowInv Buf.first_minutes _ _ hnm i1 (k1.1 (Or.inr s1)),
      shows_only_of_RowInv Buf.second_minutes _ _ hnm i2 (k2.1 (Or.inr s2))⟩
  refine ⟨run_writes_free ts _ hinv (Paced_of_IdlePaced ts _ hok hp), hrest, ?_⟩
  intro pre t post hts hdiff
  have hidle : Idle (run (handle_init mem width round) pre) t := by
    have hp2 := hp
    rw [hts] at hp2
    exact (IdlePaced_split pre t post _ hp2).2
  exact ⟨hidle hdiff, hrest pre t post hts (hidle hdiff)⟩

set_option maxRecDepth 100000 in
theorem idle_paced_run_is_safe_witness :
    IdlePaced (handle_init mem0 144 false) calm_readings ∧
    (run (handle_init mem0 144 false) (calm_readings.take 52)).last_minute ≠ 7 ∧
    (run (handle_init mem0 144 false) (calm_readings.take 52)).rows2.label.text
      = some (Buf.second_minutes 1) ∧
    (run (handle_init mem0 144 false) (calm_readings.take 52)).render_state.next_minutes = 0 ∧
    ∀ w ∈ run_writes (handle_init mem0 144 false) calm_readings, w.in_use = false :=
  ⟨by decide, by decide, by decide, by decide,
   (idle_paced_run_is_safe mem0 144 false calm_readings (by decide)).1⟩

end SlidingText
